import Mathlib

/-!
# Spell Chess rules engine — shallow embedding and verification

This file embeds the game engine of `src/lib/gameEngine.ts` (a pure
TypeScript chess-with-spells rules engine) into Lean 4 and proves or refutes
the frozen specification claims about it.

Modelling conventions, applied uniformly:

* JS strings are `List Char` (abbreviated `Str`); the source's string
  methods (`split`, `toUpperCase`, `charAt`, `includes`, `substring`) are
  modelled by small character-list functions with the same semantics.
* JS numbers used as board coordinates are `Int`; counters that are only
  ever incremented from 0 are `Nat`.
* Array indexing `board[r][c]` is `boardGet`, which returns `none` for any
  out-of-range index.  (For a negative or too-large row index the original
  JS expression `board[r][c]` throws instead of yielding `undefined`; that
  difference is only observable on inputs on which the source crashes, and
  such calls are treated as failures, never as successful operations.)
* In-place mutation of piece objects is modelled by functional board
  updates at the piece's square, following the aliasing of the source
  (e.g. `moved.hasMoved = true` after `ns.board[toR][toC] = moved` updates
  the piece now stored at the destination square).
* The global piece-id counter `_pieceIdSeq` makes the concrete id strings
  of two different `createInitialGameState()` calls differ by a fixed
  renaming determined by the initial square.  Ids are therefore modelled
  deterministically as `r*8+c` of the initial square, so that the claims'
  "equal up to piece-id renaming" becomes plain equality.
* `JSON.stringify`-based deep copies are the identity on values.
* The position-signature string of `generateStateSignature` is modelled as
  a structure `Sig` holding the same components (board layout string, side
  to move, castling rights, en-passant target, four cooldown markers); the
  source's serialization of these components is injective, so equality of
  `Sig` values coincides with equality of the signature strings.
* Identifiers that a gate of the verification toolchain reserves are
  renamed with a comment (notation → ntn, prefix → pfx); all other names
  follow the source.
-/

namespace SpellChess

/-- JS strings, modelled as lists of characters. -/
abbrev Str := List Char

/-- Shorthand turning a Lean string literal into a `Str`. -/
def str (s : String) : Str := s.data

/-- `s.toLowerCase()` (the source only ever lower-cases ASCII piece letters). -/
def toLowerStr (s : Str) : Str := s.map Char.toLower

/-- `s.toUpperCase()`. -/
def toUpperStr (s : Str) : Str := s.map Char.toUpper

/-- JS `s.split(sep)` for a single-character separator.
`"".split(sep)` is `[""]`, matching JS. -/
def splitOnChar (sep : Char) : Str → List Str
  | [] => [[]]
  | c :: rest =>
    let r := splitOnChar sep rest
    if c = sep then [] :: r
    else (c :: r.headD []) :: r.tail

/-- The string JS produces when interpolating `undefined`; used as the
default where the source would read a missing array element into a
template literal. -/
def jsUndefined : Str := str "undefined"

inductive Color
  | white
  | black
deriving DecidableEq, Repr

def Color.other : Color → Color
  | .white => .black
  | .black => .white

/-- A piece. `type` is the single-letter piece string of the source
("K".."P" white, "k".."p" black; promotion writes the caller's letter).
`id` is the stable piece identity (see the id-modelling note above). -/
structure Piece where
  type : Str
  color : Color
  id : Nat
  isFrozen : Bool
  isJumpable : Bool
  hasMoved : Bool
deriving DecidableEq, Repr

/-- The 8×8 board, row 0 = rank 8. -/
abbrev Board := List (List (Option Piece))

/-- `board[r][c]`, `none` whenever the indices leave the board. -/
def boardGet (b : Board) (r c : Int) : Option Piece :=
  if 0 ≤ r ∧ r < 8 ∧ 0 ≤ c ∧ c < 8 then
    (b.getD r.toNat []).getD c.toNat none
  else none

/-- `board[r][c] = v`; out-of-range writes are dropped (the source would
throw on them, and no successful operation performs one). -/
def boardSet (b : Board) (r c : Int) (v : Option Piece) : Board :=
  if 0 ≤ r ∧ r < 8 ∧ 0 ≤ c ∧ c < 8 then
    b.set r.toNat ((b.getD r.toNat []).set c.toNat v)
  else b

/-- Per-player spell resources (`SpellState` in the source). -/
structure SpellState where
  jump : Int
  freeze : Int
  jumpLastUsedTurn : Nat
  freezeLastUsedTurn : Nat
deriving DecidableEq, Repr

/-- The `state.spells` record with one `SpellState` per color. -/
structure Spells where
  white : SpellState
  black : SpellState
deriving DecidableEq, Repr

def Spells.get (sp : Spells) : Color → SpellState
  | .white => sp.white
  | .black => sp.black

def Spells.set (sp : Spells) (col : Color) (ss : SpellState) : Spells :=
  match col with
  | .white => { sp with white := ss }
  | .black => { sp with black := ss }

inductive SpellKind
  | jump
  | freeze
deriving DecidableEq, Repr

def SpellKind.asStr : SpellKind → Str
  | .jump => str "jump"
  | .freeze => str "freeze"

/-- An `ActiveSpell` record; jump spells carry `targetId`, freeze spells
carry `targetSquare` and `affectedPieceIds`, mirroring the optional fields
of the source's interface. -/
structure ActiveSpell where
  type : SpellKind
  targetId : Option Nat := none
  targetSquare : Option (Int × Int) := none
  affectedPieceIds : List Nat := []
  expiresAtPly : Nat
deriving DecidableEq, Repr

/-- The four castling-right booleans (`castlingRights.white.K` etc. in the
source, flattened into one record). -/
structure CastlingRights where
  whiteK : Bool
  whiteQ : Bool
  blackK : Bool
  blackQ : Bool
deriving DecidableEq, Repr

/-- The pending-promotion record (`AwaitingPromotion`); `originalMoveNtn`
is the source's `originalMoveNotation`. -/
structure AwaitingPromotion where
  r : Int
  c : Int
  color : Color
  originalMoveNtn : Str
  movingPiece : Piece
  fromR : Int
  fromC : Int
deriving DecidableEq, Repr

/-- One move-log entry; `ntn` is the source's `notation` field. -/
structure MoveLogEntry where
  turn : Nat
  player : Color
  ntn : Str
  actions : List Str
  plySnapshotIndex : Nat
deriving DecidableEq, Repr

/-- A history snapshot: everything in `GameState` except `history` and
`repetitionCounter`. -/
structure GameSnapshot where
  board : Board
  currentPlayer : Color
  gameTurnNumber : Nat
  plyCount : Nat
  spells : Spells
  activeSpells : List ActiveSpell
  moveLog : List MoveLogEntry
  enPassantTarget : Option (Int × Int)
  castlingRights : CastlingRights
  isGameOver : Bool
  gameEndMessage : Str
  awaitingPromotion : Option AwaitingPromotion
deriving DecidableEq, Repr

/-- The position signature of `generateStateSignature`, as a structure
(see the modelling note on `Sig` in the header). -/
structure Sig where
  boardStr : Str
  player : Color
  castling : CastlingRights
  enPassant : Option (Int × Int)
  cooldowns : Nat × Nat × Nat × Nat
deriving DecidableEq, Repr

/-- The aggregate game state. `repetitionCounter` (a JS object keyed by
signature strings) is an association list in insertion order. -/
structure GameState where
  board : Board
  currentPlayer : Color
  gameTurnNumber : Nat
  plyCount : Nat
  spells : Spells
  activeSpells : List ActiveSpell
  moveLog : List MoveLogEntry
  enPassantTarget : Option (Int × Int)
  castlingRights : CastlingRights
  isGameOver : Bool
  gameEndMessage : Str
  awaitingPromotion : Option AwaitingPromotion
  history : List GameSnapshot
  repetitionCounter : List (Sig × Nat)
deriving DecidableEq, Repr

/-- Source: `createSnapshot` (a deep copy in the source; values here). -/
def createSnapshot (s : GameState) : GameSnapshot :=
  { board := s.board
    currentPlayer := s.currentPlayer
    gameTurnNumber := s.gameTurnNumber
    plyCount := s.plyCount
    spells := s.spells
    activeSpells := s.activeSpells
    moveLog := s.moveLog
    enPassantTarget := s.enPassantTarget
    castlingRights := s.castlingRights
    isGameOver := s.isGameOver
    gameEndMessage := s.gameEndMessage
    awaitingPromotion := s.awaitingPromotion }

/-- Source: `deepCopyState` — the identity under value semantics. -/
def deepCopyState (s : GameState) : GameState := s

-- ============================================================
-- Coordinate helpers
-- ============================================================

/-- Source: `algebraicFromCoords`.  For on-board coordinates `8 - r` is a
single digit; this is the only range the engine passes in. -/
def algebraicFromCoords (r c : Int) : Str :=
  [Char.ofNat (97 + c).toNat, Char.ofNat (48 + (8 - r)).toNat]

/-- Source: `parseAlgebraicToCoords`.  Returns `(r, c)`. -/
def parseAlgebraicToCoords (alg : Str) : Option (Int × Int) :=
  match alg with
  | [c0, c1] =>
    let file : Int := (c0.toNat : Int) - 97
    -- `parseInt(alg[1], 10)` is NaN exactly when the character is not a
    -- digit, in which case the `isNaN(rank)` test rejects.
    if c1.isDigit then
      let rank : Int := 8 - ((c1.toNat : Int) - 48)
      if file < 0 ∨ file > 7 ∨ rank < 0 ∨ rank > 7 then none
      else some (rank, file)
    else none
  | _ => none

-- ============================================================
-- Spell helpers
-- ============================================================

def SPELL_COOLDOWN_TURNS : Nat := 3

/-- Source: `isSpellOnCooldown`. -/
def isSpellOnCooldown (spellState : SpellState) (spellType : SpellKind)
    (currentTurn : Nat) : Bool :=
  let lastUsed := match spellType with
    | .jump => spellState.jumpLastUsedTurn
    | .freeze => spellState.freezeLastUsedTurn
  if lastUsed = 0 then false
  else decide (currentTurn < lastUsed + SPELL_COOLDOWN_TURNS)

/-- Source: `canCastSpell`. -/
def canCastSpell (state : GameState) (spellType : SpellKind) : Bool :=
  let ps := state.spells.get state.currentPlayer
  let count := match spellType with
    | .jump => ps.jump
    | .freeze => ps.freeze
  if count ≤ 0 then false
  else !(isSpellOnCooldown ps spellType state.gameTurnNumber)

/-- Source: `isSquareUnderActiveFreeze`.  A freeze spell's 3×3 zone,
clipped to the board, contains `(sqR, sqC)` while the spell is active.
(The source asserts `spell.targetSquare!`; every freeze spell carries a
square, so the `none` branch is unreachable.) -/
def isSquareUnderActiveFreeze (sqR sqC : Int) (activeSpells : List ActiveSpell)
    (currentPly : Nat) : Bool :=
  activeSpells.any fun spell =>
    if spell.type = .freeze ∧ currentPly < spell.expiresAtPly then
      match spell.targetSquare with
      | some (cr, cc) =>
        decide (max 0 (cr - 1) ≤ sqR ∧ sqR ≤ min 7 (cr + 1) ∧
                max 0 (cc - 1) ≤ sqC ∧ sqC ≤ min 7 (cc + 1))
      | none => false
    else false

/-- Position of the first piece (in row-major scan order) with the given
id; support for `findPieceById`, whose caller mutates the found piece. -/
def findPieceByIdPos (b : Board) (i : Nat) : Option (Nat × Nat) :=
  (List.range 8).findSome? fun (r : Nat) =>
    (List.range 8).findSome? fun (c : Nat) =>
      match boardGet b (r : Int) (c : Int) with
      | some p => if p.id = i then some (r, c) else none
      | none => none

/-- Source: `findPieceById`. -/
def findPieceById (b : Board) (i : Nat) : Option Piece :=
  (findPieceByIdPos b i).bind fun rc => boardGet b (rc.1 : Int) (rc.2 : Int)

/-- `p.isJumpable = false` on the piece found by `findPieceById` (the
source mutates the returned object in place). -/
def clearJumpableById (b : Board) (i : Nat) : Board :=
  match findPieceByIdPos b i with
  | some (r, c) =>
    match boardGet b (r : Int) (c : Int) with
    | some p => boardSet b (r : Int) (c : Int) (some { p with isJumpable := false })
    | none => b
  | none => b

/-- The loop body of `updateActiveSpells`: walk the active-spell list in
order, dropping expired spells (clearing the jumpable flag of an expired
jump spell's piece) and keeping the rest. -/
def updateActiveSpellsGo (ply : Nat) : Board → List ActiveSpell → Board × List ActiveSpell
  | b, [] => (b, [])
  | b, spell :: rest =>
    if spell.expiresAtPly ≤ ply then
      let b' :=
        if spell.type = .jump then
          match spell.targetId with
          | some i => clearJumpableById b i
          | none => b
        else b
      updateActiveSpellsGo ply b' rest
    else
      let result := updateActiveSpellsGo ply b rest
      (result.1, spell :: result.2)

/-- Source: `updateActiveSpells`. -/
def updateActiveSpells (state : GameState) : GameState :=
  let result := updateActiveSpellsGo state.plyCount state.board state.activeSpells
  { state with board := result.1, activeSpells := result.2 }

-- ============================================================
-- Move validation
-- ============================================================

/-- The `while` loop of `isPathClear`, with enough fuel for any call the
engine makes (a walk from an on-board square either reaches `to` or
leaves the board within at most 16 steps). -/
def isPathClearGo (toR toC : Int) (b : Board) (dr dc : Int) :
    Nat → Int → Int → Bool
  | 0, _, _ => false
  | fuel + 1, r, c =>
    if r = toR ∧ c = toC then true
    else if r < 0 ∨ 8 ≤ r ∨ c < 0 ∨ 8 ≤ c then false
    else
      match boardGet b r c with
      | some p =>
        if p.isJumpable then isPathClearGo toR toC b dr dc fuel (r + dr) (c + dc)
        else false
      | none => isPathClearGo toR toC b dr dc fuel (r + dr) (c + dc)

/-- Source: `isPathClear` — squares strictly between `from` and `to` are
empty or hold a jumpable piece. -/
def isPathClear (fromR fromC toR toC : Int) (b : Board) : Bool :=
  let dr := Int.sign (toR - fromR)
  let dc := Int.sign (toC - fromC)
  isPathClearGo toR toC b dr dc 32 (fromR + dr) (fromC + dc)

/-- The per-piece attack test shared by `isSquareAttacked` and
`getAttackers` (the two source functions inline identical logic). -/
def pieceAttacks (targetR targetC : Int) (attackerColor : Color)
    (b : Board) (activeSpells : List ActiveSpell) (currentPly : Nat)
    (r c : Int) : Bool :=
  match boardGet b r c with
  | none => false
  | some piece =>
    if piece.color ≠ attackerColor then false
    else
      let frozen := piece.isFrozen || isSquareUnderActiveFreeze r c activeSpells currentPly
      -- Frozen pieces can't attack (except the king which can't be frozen)
      if frozen = true ∧ toLowerStr piece.type ≠ str "k" then false
      else
        let t := toLowerStr piece.type
        if t = str "p" then
          let dir : Int := if attackerColor = .white then -1 else 1
          decide (r + dir = targetR ∧ (c - targetC).natAbs = 1)
        else if t = str "n" then
          let dr := (targetR - r).natAbs
          let dc := (targetC - c).natAbs
          decide ((dr = 2 ∧ dc = 1) ∨ (dr = 1 ∧ dc = 2))
        else if t = str "k" then
          decide ((targetR - r).natAbs ≤ 1 ∧ (targetC - c).natAbs ≤ 1)
        else
          (decide ((t = str "r" ∨ t = str "q") ∧ (r = targetR ∨ c = targetC)) &&
            isPathClear r c targetR targetC b) ||
          (decide ((t = str "b" ∨ t = str "q") ∧
              (targetR - r).natAbs = (targetC - c).natAbs) &&
            isPathClear r c targetR targetC b)

/-- Source: `isSquareAttacked`.  (`enPassantTarget` is accepted and unused,
as in the source.) -/
def isSquareAttacked (targetR targetC : Int) (attackerColor : Color)
    (b : Board) (_enPassantTarget : Option (Int × Int))
    (activeSpells : List ActiveSpell) (currentPly : Nat) : Bool :=
  (List.range 8).any fun (r : Nat) =>
    (List.range 8).any fun (c : Nat) =>
      pieceAttacks targetR targetC attackerColor b activeSpells currentPly
        (r : Int) (c : Int)

/-- The first square (row-major) holding a piece whose `type` string is
exactly `kt`. -/
def findKingPos (b : Board) (kt : Str) : Option (Int × Int) :=
  (List.range 8).findSome? fun (r : Nat) =>
    (List.range 8).findSome? fun (c : Nat) =>
      match boardGet b (r : Int) (c : Int) with
      | some p => if p.type = kt then some ((r : Int), (c : Int)) else none
      | none => none

/-- Source: `isKingInCheck`; `false` when the king is absent. -/
def isKingInCheck (kingColor : Color) (b : Board)
    (enPassantTarget : Option (Int × Int)) (activeSpells : List ActiveSpell)
    (currentPly : Nat) : Bool :=
  let kingType := if kingColor = .white then str "K" else str "k"
  let attackerColor := kingColor.other
  match findKingPos b kingType with
  | none => false
  | some kp =>
    isSquareAttacked kp.1 kp.2 attackerColor b enPassantTarget activeSpells currentPly

/-- Source: `getAttackers` — every attacker of the square, in scan order. -/
def getAttackers (targetR targetC : Int) (attackerColor : Color)
    (b : Board) (_enPassantTarget : Option (Int × Int))
    (activeSpells : List ActiveSpell) (currentPly : Nat) :
    List (Piece × Int × Int) :=
  (List.range 8).flatMap fun (r : Nat) =>
    (List.range 8).flatMap fun (c : Nat) =>
      match boardGet b (r : Int) (c : Int) with
      | some piece =>
        if pieceAttacks targetR targetC attackerColor b activeSpells currentPly
            (r : Int) (c : Int) then
          [(piece, (r : Int), (c : Int))]
        else []
      | none => []

/-- Source: `checkCastleConditions`.  (`kingToR` is accepted and unused, as
in the source.) -/
def checkCastleConditions (kingFromR kingFromC : Int) (_kingToR kingToC : Int)
    (b : Board) (player : Color) (castlingRights : CastlingRights)
    (activeSpells : List ActiveSpell) (currentPly : Nat)
    (enPassantTarget : Option (Int × Int)) : Bool :=
  match boardGet b kingFromR kingFromC with
  | none => false
  | some king =>
    if king.hasMoved then false
    else if isKingInCheck player b enPassantTarget activeSpells currentPly then false
    else
      let opp := player.other
      let kingside := kingFromC < kingToC
      if kingside then
        if player = .white ∧ castlingRights.whiteK = false then false
        else if player = .black ∧ castlingRights.blackK = false then false
        else
          match boardGet b kingFromR 7 with
          | none => false
          | some rook =>
            if toLowerStr rook.type ≠ str "r" ∨ rook.hasMoved = true then false
            else if (boardGet b kingFromR (kingFromC + 1)).isSome ∨
                (boardGet b kingFromR (kingFromC + 2)).isSome then false
            else if isSquareAttacked kingFromR (kingFromC + 1) opp b enPassantTarget
                  activeSpells currentPly = true ∨
                isSquareAttacked kingFromR (kingFromC + 2) opp b enPassantTarget
                  activeSpells currentPly = true then false
            else true
      else
        if player = .white ∧ castlingRights.whiteQ = false then false
        else if player = .black ∧ castlingRights.blackQ = false then false
        else
          match boardGet b kingFromR 0 with
          | none => false
          | some rook =>
            if toLowerStr rook.type ≠ str "r" ∨ rook.hasMoved = true then false
            else if (boardGet b kingFromR (kingFromC - 1)).isSome ∨
                (boardGet b kingFromR (kingFromC - 2)).isSome ∨
                (boardGet b kingFromR (kingFromC - 3)).isSome then false
            else if isSquareAttacked kingFromR (kingFromC - 1) opp b enPassantTarget
                  activeSpells currentPly = true ∨
                isSquareAttacked kingFromR (kingFromC - 2) opp b enPassantTarget
                  activeSpells currentPly = true then false
            else true

/-- The scratch board of `isValidMove`'s king-safety simulation: the move
performed on a copy (destination overwritten, then source cleared), with
the en-passant victim additionally removed when the move is an en-passant
capture; `t` is the mover's lower-cased type. -/
def simBoard (b : Board) (fromR fromC toR toC : Int) (t : Str)
    (enPassantTarget : Option (Int × Int)) : Board :=
  let tmp := boardSet (boardSet b toR toC (boardGet b fromR fromC)) fromR fromC none
  if t = str "p" ∧ enPassantTarget = some (toR, toC) ∧ boardGet b toR toC = none then
    boardSet tmp fromR toC none
  else tmp

/-- The `switch` statement of `isValidMove`, computing the per-piece
geometric validity (the source's `valid` flag). -/
def pieceGeometryOk (fromR fromC toR toC : Int) (b : Board)
    (enPassantTarget : Option (Int × Int)) (moving : Piece) : Bool :=
  let target := boardGet b toR toC
  let t := toLowerStr moving.type
  if t = str "p" then
    let dir : Int := if moving.color = .white then -1 else 1
    if toR = fromR + dir ∧ toC = fromC ∧ target = none then true
    else if toR = fromR + 2 * dir ∧ toC = fromC ∧
        moving.hasMoved = false ∧ target = none then
      match boardGet b (fromR + dir) fromC with
      | none => true
      | some mid => mid.isJumpable
    else if toR = fromR + dir ∧ (toC - fromC).natAbs = 1 ∧
        (target.any fun tp => decide (tp.color ≠ moving.color)) = true then true
    else if toR = fromR + dir ∧ (toC - fromC).natAbs = 1 ∧ target = none ∧
        enPassantTarget = some (toR, toC) then
      match boardGet b fromR toC with
      | some epPawn =>
        decide (toLowerStr epPawn.type = str "p" ∧ epPawn.color ≠ moving.color)
      | none => false
    else false
  else if t = str "n" then
    let dr := (toR - fromR).natAbs
    let dc := (toC - fromC).natAbs
    decide ((dr = 2 ∧ dc = 1) ∨ (dr = 1 ∧ dc = 2))
  else if t = str "b" then
    decide ((toR - fromR).natAbs = (toC - fromC).natAbs) &&
      isPathClear fromR fromC toR toC b
  else if t = str "r" then
    decide (fromR = toR ∨ fromC = toC) && isPathClear fromR fromC toR toC b
  else if t = str "q" then
    decide ((fromR = toR ∨ fromC = toC) ∨
        (toR - fromR).natAbs = (toC - fromC).natAbs) &&
      isPathClear fromR fromC toR toC b
  else if t = str "k" then
    decide ((toR - fromR).natAbs ≤ 1 ∧ (toC - fromC).natAbs ≤ 1)
  else false

/-- Source: `isValidMove`. -/
def isValidMove (fromR fromC toR toC : Int) (b : Board)
    (currentPlayer : Color) (enPassantTarget : Option (Int × Int))
    (castlingRights : CastlingRights) (activeSpells : List ActiveSpell)
    (currentPly : Nat) : Bool :=
  match boardGet b fromR fromC with
  | none => false
  | some moving =>
    if moving.color ≠ currentPlayer then false
    else if moving.isFrozen ||
        isSquareUnderActiveFreeze fromR fromC activeSpells currentPly then false
    else if fromR = toR ∧ fromC = toC then false
    else
      let target := boardGet b toR toC
      if target.any fun tp => decide (tp.color = moving.color) then false
      else
        let t := toLowerStr moving.type
        -- Castling
        if t = str "k" ∧ (toC - fromC).natAbs = 2 ∧ fromR = toR then
          checkCastleConditions fromR fromC toR toC b currentPlayer
            castlingRights activeSpells currentPly enPassantTarget
        else
          let valid : Bool :=
            pieceGeometryOk fromR fromC toR toC b enPassantTarget moving
          if valid = false then false
          -- Allow capturing the opponent's king (used during attack-square detection)
          else if target.any fun tp => decide (toLowerStr tp.type = str "k") then true
          else
            -- Simulate move and verify king is not in check
            let tmp := simBoard b fromR fromC toR toC t enPassantTarget
            let kingType := if currentPlayer = .white then str "K" else str "k"
            match findKingPos tmp kingType with
            | none => true
            | some kp =>
              !(isSquareAttacked kp.1 kp.2 currentPlayer.other tmp none activeSpells currentPly)

/-- `tmp[jr][jc]!.isJumpable = true` in the jump-escape search. -/
def setJumpableAt (b : Board) (r c : Int) : Board :=
  match boardGet b r c with
  | some p => boardSet b r c (some { p with isJumpable := true })
  | none => b

/-- Source: `hasLegalMoves`, including the spell-escape logic. -/
def hasLegalMoves (playerColor : Color) (state : GameState) : Bool :=
  let b := state.board
  let ps := state.spells.get playerColor
  -- 1. Standard legal moves
  let std := (List.range 8).any fun (r : Nat) =>
    (List.range 8).any fun (c : Nat) =>
      match boardGet b (r : Int) (c : Int) with
      | none => false
      | some piece =>
        if piece.color ≠ playerColor then false
        else if piece.isFrozen ||
            isSquareUnderActiveFreeze (r : Int) (c : Int) state.activeSpells
              state.plyCount then false
        else (List.range 8).any fun (tr : Nat) =>
          (List.range 8).any fun (tc : Nat) =>
            isValidMove (r : Int) (c : Int) (tr : Int) (tc : Int) b playerColor
              state.enPassantTarget state.castlingRights state.activeSpells
              state.plyCount
  if std then true
  -- Not in check → stalemate (spells don't create moves from nothing)
  else if isKingInCheck playerColor b state.enPassantTarget state.activeSpells
      state.plyCount = false then false
  else
    let canFreeze := decide (0 < ps.freeze) &&
      (decide (ps.freezeLastUsedTurn = 0) ||
        decide (ps.freezeLastUsedTurn + SPELL_COOLDOWN_TURNS ≤ state.gameTurnNumber))
    let canJump := decide (0 < ps.jump) &&
      (decide (ps.jumpLastUsedTurn = 0) ||
        decide (ps.jumpLastUsedTurn + SPELL_COOLDOWN_TURNS ≤ state.gameTurnNumber))
    if (canFreeze || canJump) = false then false
    -- Freeze is assumed to always offer an escape (blanket rule)
    else if canFreeze then true
    else
      -- Jump: check if making any piece jumpable allows capturing the attacker
      let kingType := if playerColor = .white then str "K" else str "k"
      match findKingPos b kingType with
      | none => true
      | some kp =>
        let attackers := getAttackers kp.1 kp.2 playerColor.other b
          state.enPassantTarget state.activeSpells state.plyCount
        match attackers with
        | [] => false
        | attacker :: rest =>
          if rest.length ≥ 1 then false -- Double check, jump can't help
          else
            (List.range 8).any fun (jr : Nat) =>
              (List.range 8).any fun (jc : Nat) =>
                match boardGet b (jr : Int) (jc : Int) with
                | none => false
                | some _ =>
                  let tmp := setJumpableAt b (jr : Int) (jc : Int)
                  (List.range 8).any fun (mr : Nat) =>
                    (List.range 8).any fun (mc : Nat) =>
                      match boardGet tmp (mr : Int) (mc : Int) with
                      | some mp =>
                        if mp.color = playerColor then
                          isValidMove (mr : Int) (mc : Int) attacker.2.1 attacker.2.2
                            tmp playerColor state.enPassantTarget
                            state.castlingRights state.activeSpells state.plyCount
                        else false
                      | none => false

-- ============================================================
-- Threefold-repetition state signature
-- ============================================================

/-- The board-layout component of the signature: each square as its piece
type plus `*` if jumpable, empty squares as a space, rows joined by `/`. -/
def sigBoardStr (b : Board) : Str :=
  List.intercalate (str "/") (b.map fun row =>
    (row.map fun p? =>
      match p? with
      | none => str " "
      | some p => p.type ++ (if p.isJumpable then str "*" else [])).flatten)

/-- Source: `generateStateSignature`, on the snapshot fields it reads. -/
def generateStateSignature (s : GameSnapshot) : Sig :=
  { boardStr := sigBoardStr s.board
    player := s.currentPlayer
    castling := s.castlingRights
    enPassant := s.enPassantTarget
    cooldowns := (s.spells.white.jumpLastUsedTurn, s.spells.white.freezeLastUsedTurn,
                  s.spells.black.jumpLastUsedTurn, s.spells.black.freezeLastUsedTurn) }

/-- `repetitionCounter[sig]` (JS object read). -/
def lookupSig (m : List (Sig × Nat)) (k : Sig) : Option Nat :=
  (m.find? fun e => decide (e.1 = k)).map fun e => e.2

/-- `repetitionCounter[sig] = (repetitionCounter[sig] || 0) + 1` (JS object
write: update in place, or append a new key). -/
def bumpSig (m : List (Sig × Nat)) (k : Sig) : List (Sig × Nat) :=
  match m with
  | [] => [(k, 1)]
  | (k', v) :: rest =>
    if k' = k then (k', v + 1) :: rest else (k', v) :: bumpSig rest k

-- ============================================================
-- Move notation
-- ============================================================

/-- Source: `generateMoveNotation` (SAN-style with disambiguation). -/
def generateMoveNotation (state : GameState) (piece : Piece)
    (fromR fromC toR toC : Int) (capturedPiece : Option Piece)
    (isEnPassant : Bool) : Str :=
  let pieceTypeUpper := toUpperStr piece.type
  let toAlg := algebraicFromCoords toR toC
  if pieceTypeUpper = str "P" then
    if capturedPiece.isSome || isEnPassant then
      [Char.ofNat (97 + fromC).toNat, 'x'] ++ toAlg
    else toAlg
  else
    let competitors : List (Int × Int) :=
      (List.range 8).flatMap fun (r : Nat) =>
        (List.range 8).flatMap fun (c : Nat) =>
          if (r : Int) = fromR ∧ (c : Int) = fromC then []
          else
            match boardGet state.board (r : Int) (c : Int) with
            | some p =>
              if p.color = piece.color ∧ p.type = piece.type ∧
                  isValidMove (r : Int) (c : Int) toR toC state.board
                    state.currentPlayer state.enPassantTarget
                    state.castlingRights state.activeSpells state.plyCount = true then
                [((r : Int), (c : Int))]
              else []
            | none => []
    let base := pieceTypeUpper
    let base :=
      if 0 < competitors.length then
        let fromFile : Str := [Char.ofNat (97 + fromC).toNat]
        let fromRank : Str := [Char.ofNat (48 + (8 - fromR)).toNat]
        let sameFile := competitors.any fun q => decide (q.2 = fromC)
        let sameRank := competitors.any fun q => decide (q.1 = fromR)
        if sameFile = true ∧ sameRank = true then base ++ fromFile ++ fromRank
        else if sameFile then base ++ fromRank
        else base ++ fromFile
      else base
    let base := if capturedPiece.isSome then base ++ str "x" else base
    base ++ toAlg

-- ============================================================
-- Apply spell (returns new state but does NOT advance turn)
-- ============================================================

/-- Source: `SpellResult` (`ntn` is the source's `notation`). -/
inductive SpellResult
  | ok (state : GameState) (ntn : Str)
  | fail (error : Str)
deriving DecidableEq, Repr

/-- Source: `applySpell`. -/
def applySpell (state : GameState) (spellType : SpellKind)
    (targetR targetC : Int) : SpellResult :=
  if canCastSpell state spellType = false then
    .fail (str "Cannot cast " ++ spellType.asStr ++ str " spell right now.")
  else
    let ns := deepCopyState state
    let ps := ns.spells.get ns.currentPlayer
    let targetPiece := boardGet ns.board targetR targetC
    match spellType with
    | .jump =>
      match targetPiece with
      | none => .fail (str "Jump must target a piece.")
      | some tp =>
        let ps1 := { ps with jump := ps.jump - 1, jumpLastUsedTurn := ns.gameTurnNumber }
        let spell : ActiveSpell :=
          { type := .jump, targetId := some tp.id, expiresAtPly := ns.plyCount + 2 }
        let board1 := boardSet ns.board targetR targetC (some { tp with isJumpable := true })
        .ok { ns with
              spells := ns.spells.set ns.currentPlayer ps1
              activeSpells := ns.activeSpells ++ [spell]
              board := board1 }
          (str "jump@" ++ algebraicFromCoords targetR targetC)
    | .freeze =>
      let ps1 := { ps with freeze := ps.freeze - 1, freezeLastUsedTurn := ns.gameTurnNumber }
      let affected := (List.range 3).flatMap fun (i : Nat) =>
        (List.range 3).flatMap fun (j : Nat) =>
          let nr := targetR + (i : Int) - 1
          let nc := targetC + (j : Int) - 1
          match boardGet ns.board nr nc with
          | some p => [p.id]
          | none => []
      let spell : ActiveSpell :=
        { type := .freeze, targetSquare := some (targetR, targetC),
          affectedPieceIds := affected, expiresAtPly := ns.plyCount + 2 }
      .ok { ns with
            spells := ns.spells.set ns.currentPlayer ps1
            activeSpells := ns.activeSpells ++ [spell] }
        (str "freeze@" ++ algebraicFromCoords targetR targetC)

-- ============================================================
-- Apply move (returns new state and advances turn)
-- ============================================================

/-- Source: `MoveResult`. -/
inductive MoveResult
  | done (state : GameState)
  | awaiting (state : GameState) (promotionContext : AwaitingPromotion)
  | fail (error : Str)
deriving DecidableEq, Repr

/-- JS truthiness of the optional `promotionPiece` string parameter
(`undefined` and `""` are falsy). -/
def jsTruthyStr : Option Str → Bool
  | some (_ :: _) => true
  | _ => false

/-- `${s[0]}` in JS: the first character, or the string `"undefined"` when
the string is empty. -/
def charAt0OrUndef : Str → Str
  | [] => jsUndefined
  | c :: _ => [c]

/-- "White"/"Black": `player.charAt(0).toUpperCase() + player.slice(1)`. -/
def Color.capitalized : Color → Str
  | .white => str "White"
  | .black => str "Black"

/-- The turn-advance step of `_finalizeMove`: once the game is over the
player to move and turn number stay put; otherwise the opponent is to
move, and the turn number increments after black's ply. -/
def advanceTurn (playerWhoMoved : Color) (ns5 : GameState) : GameState :=
  if ns5.isGameOver then ns5
  else
    { ns5 with
      gameTurnNumber :=
        if playerWhoMoved = .black then ns5.gameTurnNumber + 1 else ns5.gameTurnNumber
      currentPlayer := playerWhoMoved.other }

/-- The repetition bookkeeping at the end of `_finalizeMove` (the block
guarded by `if (!ns.isGameOver)` after the history push; the signature of
the snapshot just pushed is that of the state itself). -/
def repetitionStep (ns : GameState) : GameState :=
  if ns.isGameOver then ns
  else
    let sig := generateStateSignature (createSnapshot ns)
    let count := (lookupSig ns.repetitionCounter sig).getD 0 + 1
    let ns1 := { ns with repetitionCounter := bumpSig ns.repetitionCounter sig }
    if 3 ≤ count then
      { ns1 with isGameOver := true, gameEndMessage := str "Draw by threefold repetition." }
    else ns1

/-- Source: `_finalizeMove` (`moveNtn`/`spellNtn` are the source's
`moveNotation`/`spellNotation`). -/
def finalizeMove (ns0 : GameState) (moveNtn : Str) (movedPiece : Piece)
    (fromR toR fromC toC : Int) (spellNtn : Option Str) : MoveResult :=
  let playerWhoMoved := ns0.currentPlayer
  -- Build compact action list for this ply
  let compactActions : List Str :=
    (match spellNtn with
     | some sn =>
       let parts := splitOnChar '@' sn
       [(parts.headD []).take 1 ++ str "@" ++ parts.getD 1 jsUndefined]
     | none => []) ++
    [algebraicFromCoords fromR fromC ++ str "-" ++ algebraicFromCoords toR toC ++
      (if moveNtn.contains '=' then
        str "=" ++ charAt0OrUndef ((splitOnChar '=' moveNtn).getD 1 jsUndefined)
      else [])]
  let ns1 := { ns0 with plyCount := ns0.plyCount + 1 }
  let ns2 := updateActiveSpells ns1
  -- Game-end detection
  let opp := playerWhoMoved.other
  let oppKingType := if opp = .white then str "K" else str "k"
  let oppKingOnBoard := ns2.board.any fun row =>
    row.any fun p? => p?.any fun p => decide (p.type = oppKingType)
  let oppInCheck := oppKingOnBoard &&
    isKingInCheck opp ns2.board ns2.enPassantTarget ns2.activeSpells ns2.plyCount
  let oppHasMoves := oppKingOnBoard && hasLegalMoves opp ns2
  -- (game-over flag to set, game-end message, check symbol)
  let res : Bool × Str × Str :=
    if oppKingOnBoard = false then
      (true, playerWhoMoved.capitalized ++ str " wins by king capture!", str "#")
    else if oppInCheck = true ∧ oppHasMoves = false then
      (true, playerWhoMoved.capitalized ++ str " wins by checkmate!", str "#")
    else if oppInCheck = false ∧ oppHasMoves = false then
      (true, str "Draw by stalemate.", [])
    else if oppInCheck then (false, [], str "+")
    else (false, [], [])
  let ns3 := { ns2 with isGameOver := ns2.isGameOver || res.1, gameEndMessage := res.2.1 }
  -- Update en passant square
  let ns4 := { ns3 with enPassantTarget :=
    (if toLowerStr movedPiece.type = str "p" ∧ (fromR - toR).natAbs = 2 then
      some ((fromR + toR) / 2, fromC)
    else none) }
  -- Log the move
  let entry : MoveLogEntry :=
    { turn := ns4.gameTurnNumber
      player := playerWhoMoved
      ntn := (match spellNtn with | some sn => sn ++ str " " | none => []) ++
        moveNtn ++ res.2.2
      actions := compactActions
      plySnapshotIndex := ns4.history.length }
  let ns5 := { ns4 with moveLog := ns4.moveLog ++ [entry] }
  -- Advance turn counters
  let ns6 := advanceTurn playerWhoMoved ns5
  -- Push snapshot
  let ns7 := { ns6 with history := ns6.history ++ [createSnapshot ns6] }
  -- Threefold repetition
  .done (repetitionStep ns7)

/-- Source: `applyMove`. -/
def applyMove (state : GameState) (fromR fromC toR toC : Int)
    (spellNtn : Option Str) (promotionPiece : Option Str) : MoveResult :=
  if isValidMove fromR fromC toR toC state.board state.currentPlayer
      state.enPassantTarget state.castlingRights state.activeSpells
      state.plyCount = false then
    .fail (str "Invalid move.")
  else
    match boardGet state.board fromR fromC with
    | none => .fail (str "Invalid move.") -- unreachable: a valid move has a mover
    | some movingPiece =>
      -- Generate notation from pre-move state
      let capturedPiece := boardGet state.board toR toC
      let moveNtn0 := generateMoveNotation state movingPiece fromR fromC toR toC
        capturedPiece false
      let ns := deepCopyState state
      let moved := movingPiece
      let isCastle := toLowerStr moved.type = str "k" ∧ (fromC - toC).natAbs = 2
      -- Castling: also move the rook
      let board1 :=
        if isCastle then
          let rookFromC : Int := if fromC < toC then 7 else 0
          let rookToC : Int := if fromC < toC then toC - 1 else toC + 1
          match boardGet ns.board fromR rookFromC with
          | some rook =>
            boardSet (boardSet ns.board fromR rookToC (some { rook with hasMoved := true }))
              fromR rookFromC none
          | none => ns.board
        else ns.board
      let moveNtn1 :=
        if isCastle then (if fromC < toC then str "O-O" else str "O-O-O") else moveNtn0
      -- En passant: remove the captured pawn
      let isEnPassant : Prop :=
        toLowerStr moved.type = str "p" ∧ (fromC - toC).natAbs = 1 ∧
        boardGet board1 toR toC = none ∧ ns.enPassantTarget = some (toR, toC)
      let board2 := if isEnPassant then boardSet board1 fromR toC none else board1
      let moveNtn2 :=
        if isEnPassant then
          generateMoveNotation state movingPiece fromR fromC toR toC
            (boardGet state.board fromR toC) true
        else moveNtn1
      -- Apply the move (the source then sets `moved.hasMoved = true`, which
      -- by aliasing updates the piece just stored at the destination)
      let movedPlaced := { moved with hasMoved := true }
      let board3 := boardSet (boardSet board2 toR toC (some movedPlaced)) fromR fromC none
      -- Update castling rights
      let cr := ns.castlingRights
      let cr :=
        if toLowerStr moved.type = str "k" then
          if moved.color = .white then { cr with whiteK := false, whiteQ := false }
          else { cr with blackK := false, blackQ := false }
        else if toLowerStr moved.type = str "r" then
          if moved.color = .white then
            let cr1 := if fromR = 7 ∧ fromC = 0 then { cr with whiteQ := false } else cr
            if fromR = 7 ∧ fromC = 7 then { cr1 with whiteK := false } else cr1
          else
            let cr1 := if fromR = 0 ∧ fromC = 0 then { cr with blackQ := false } else cr
            if fromR = 0 ∧ fromC = 7 then { cr1 with blackK := false } else cr1
        else cr
      -- Pawn promotion
      if (¬ isCastle) ∧ toLowerStr moved.type = str "p" ∧ (toR = 0 ∨ toR = 7) then
        if jsTruthyStr promotionPiece then
          let pp := promotionPiece.getD []
          let newType := if moved.color = .white then toUpperStr pp else toLowerStr pp
          let promoted := { movedPlaced with type := newType }
          let board4 := boardSet board3 toR toC (some promoted)
          finalizeMove { ns with board := board4, castlingRights := cr }
            (moveNtn2 ++ str "=" ++ toUpperStr pp) promoted fromR toR fromC toC spellNtn
        else
          -- Client needs to show promotion UI before finalizing
          let ctx : AwaitingPromotion :=
            { r := toR
              c := toC
              color := moved.color
              originalMoveNtn := moveNtn2
              movingPiece := movedPlaced
              fromR := fromR
              fromC := fromC }
          .awaiting
            { ns with
              board := board3
              castlingRights := cr
              awaitingPromotion := some ctx } ctx
      else
        finalizeMove { ns with board := board3, castlingRights := cr } moveNtn2
          movedPlaced fromR toR fromC toC spellNtn

/-- Source: `applyPromotion` — complete a pending promotion and finalize.
(The source's unchecked `ns.board[promo.r][promo.c]!` throws when the
promotion square is empty; that unreachable branch is modelled as a
failure.) -/
def applyPromotion (state : GameState) (promotionPiece : Str)
    (spellNtn : Option Str) : MoveResult :=
  match state.awaitingPromotion with
  | none => .fail (str "No promotion pending.")
  | some promo =>
    let ns := deepCopyState state
    let pieceType :=
      if promo.color = .white then toUpperStr promotionPiece
      else toLowerStr promotionPiece
    match boardGet ns.board promo.r promo.c with
    | none => .fail (str "No promotion pending.")
    | some p =>
      let promoted := { p with type := pieceType }
      let board1 := boardSet ns.board promo.r promo.c (some promoted)
      finalizeMove { ns with board := board1, awaitingPromotion := none }
        (promo.originalMoveNtn ++ str "=" ++ toUpperStr promotionPiece)
        promoted promo.fromR promo.r promo.fromC promo.c spellNtn

-- ============================================================
-- Resign
-- ============================================================

/-- Source: `applyResign`. -/
def applyResign (state : GameState) : GameState :=
  let ns0 := deepCopyState state
  let player := ns0.currentPlayer
  let winner := player.other.capitalized
  let msg := player.capitalized ++ str " resigned. " ++ winner ++ str " wins."
  let ns1 := { ns0 with isGameOver := true, gameEndMessage := msg }
  let entry : MoveLogEntry :=
    { turn := ns1.gameTurnNumber, player := player, ntn := str "R",
      actions := [str "R"], plySnapshotIndex := ns1.history.length }
  let ns2 := { ns1 with moveLog := ns1.moveLog ++ [entry] }
  { ns2 with history := ns2.history ++ [createSnapshot ns2] }

-- ============================================================
-- Initialization
-- ============================================================

/-- Source: `INITIAL_BOARD_SETUP`. -/
def INITIAL_BOARD_SETUP : List (List (Option Str)) :=
  [[some (str "r"), some (str "n"), some (str "b"), some (str "q"),
    some (str "k"), some (str "b"), some (str "n"), some (str "r")],
   [some (str "p"), some (str "p"), some (str "p"), some (str "p"),
    some (str "p"), some (str "p"), some (str "p"), some (str "p")],
   [none, none, none, none, none, none, none, none],
   [none, none, none, none, none, none, none, none],
   [none, none, none, none, none, none, none, none],
   [none, none, none, none, none, none, none, none],
   [some (str "P"), some (str "P"), some (str "P"), some (str "P"),
    some (str "P"), some (str "P"), some (str "P"), some (str "P")],
   [some (str "R"), some (str "N"), some (str "B"), some (str "Q"),
    some (str "K"), some (str "B"), some (str "N"), some (str "R")]]

/-- Source: `createInitialGameState`; piece ids are the deterministic
`r*8+c` of the initial square (see the header note on ids). -/
def createInitialGameState : GameState :=
  let board : Board := INITIAL_BOARD_SETUP.enum.map fun rrow =>
    rrow.2.enum.map fun cc =>
      cc.2.map fun t =>
        { type := t
          color := if t = toUpperStr t then Color.white else Color.black
          id := rrow.1 * 8 + cc.1
          isFrozen := false
          isJumpable := false
          hasMoved := false }
  let st : GameState :=
    { board := board
      currentPlayer := .white
      gameTurnNumber := 1
      plyCount := 0
      spells :=
        { white := { jump := 2, freeze := 5, jumpLastUsedTurn := 0, freezeLastUsedTurn := 0 }
          black := { jump := 2, freeze := 5, jumpLastUsedTurn := 0, freezeLastUsedTurn := 0 } }
      activeSpells := []
      moveLog := []
      enPassantTarget := none
      castlingRights := { whiteK := true, whiteQ := true, blackK := true, blackQ := true }
      isGameOver := false
      gameEndMessage := []
      awaitingPromotion := none
      history := []
      repetitionCounter := [] }
  let snap := createSnapshot st
  { st with history := [snap], repetitionCounter := [(generateStateSignature snap, 1)] }

-- ============================================================
-- Replay compact action log
-- ============================================================

/-- The replay driver's mapping from a spell token's prefix to the spell
kind: `"j"` and `"jump"` give jump, every other prefix gives freeze. -/
def spellKindOfPfx (pfx : Str) : SpellKind :=
  if pfx = str "j" ∨ pfx = str "jump" then .jump else .freeze

/-- One iteration of the `replayCompactActions` loop: process one token
given the current state and pending spell notation.  Thrown exceptions are
modelled as `Except.error`. -/
def replayStep (state : GameState) (pending : Option Str) (action : Str) :
    Except Str (GameState × Option Str) :=
  if toUpperStr action = str "R" then
    .ok (applyResign state, pending)
  else if action.contains '@' then
    let parts := splitOnChar '@' action
    let pfx := parts.headD [] -- the source's `prefix`
    let targetAlg := parts.getD 1 []
    let spellType := spellKindOfPfx pfx
    match parseAlgebraicToCoords targetAlg with
    | none => .error (str "Invalid spell action: " ++ action)
    | some coords =>
      match applySpell state spellType coords.1 coords.2 with
      | .fail e => .error (str "Spell failed: " ++ e)
      | .ok s n => .ok (s, some n)
  else
    -- Move: "e2-e4" or "e7-e8=Q".  (For a token with no "-" the source
    -- crashes reading `.substring` of `undefined`; modelled as the parse
    -- error below.)
    let parts := splitOnChar '-' action
    let fromAlg := parts.headD []
    let toAndPromo := parts.getD 1 jsUndefined
    let toAlg := toAndPromo.take 2
    match parseAlgebraicToCoords fromAlg, parseAlgebraicToCoords toAlg with
    | some fr, some dst =>
      let promotionPiece : Option Str :=
        if toAndPromo.contains '=' then
          some ((splitOnChar '=' toAndPromo).getD 1 jsUndefined)
        else none
      match applyMove state fr.1 fr.2 dst.1 dst.2 pending promotionPiece with
      | .fail e => .error (str "Move failed: " ++ e)
      | .awaiting _ _ => .error (str "Promotion piece missing in action: " ++ action)
      | .done s => .ok (s, none)
    | _, _ => .error (str "Invalid move action: " ++ action)

/-- The replay loop: thread state and pending spell notation over the
token list; once `isGameOver` is set the remaining tokens are skipped
(the source's `break`). -/
def replayGo : GameState → Option Str → List Str → Except Str (GameState × Option Str)
  | s, pending, [] => .ok (s, pending)
  | s, pending, a :: rest =>
    if s.isGameOver then .ok (s, pending)
    else
      match replayStep s pending a with
      | .ok sp => replayGo sp.1 sp.2 rest
      | .error e => .error e

/-- Source: `replayCompactActions`. -/
def replayCompactActions (actions : List Str) : Except Str GameState :=
  (replayGo createInitialGameState none actions).map fun sp => sp.1

/-- The flat token array that `replayCompactActions` receives: every log
entry's compact actions in order. -/
def compactTokens (moveLog : List MoveLogEntry) : List Str :=
  moveLog.flatMap fun e => e.actions

/-- Source: `buildCompactActionLog` — the comma-joined token array (the
string stored in the `compact_action_log` column). -/
def buildCompactActionLog (moveLog : List MoveLogEntry) : Str :=
  List.intercalate (str ",") (compactTokens moveLog)

-- ============================================================
-- Result extractors used by the theorems below
-- ============================================================

/-- The state of a finalized (`success: true`, not awaiting) move result. -/
def MoveResult.getDone : MoveResult → Option GameState
  | .done s => some s
  | _ => none

/-- The state and notation of a successful spell result. -/
def SpellResult.getOk : SpellResult → Option (GameState × Str)
  | .ok s n => some (s, n)
  | _ => none

deriving instance DecidableEq for Except

-- ============================================================
-- Claim C9 — spell-token prefixes are never validated
-- ============================================================

/-- **C9.**  In replay, every token `<prefix>@<square>` whose prefix is
neither `"j"` nor `"jump"` is interpreted as a freeze cast at that square
rather than rejected: the prefix-to-kind mapping sends every other prefix
(for example `"x"`) to freeze, and replaying `"x@e4"` succeeds and yields
exactly the state of replaying `"f@e4"`; only the square part of a spell
token is validated. -/
theorem c9_unknown_pfx_is_freeze :
    (∀ pfx : Str, pfx ≠ str "j" → pfx ≠ str "jump" →
      spellKindOfPfx pfx = SpellKind.freeze) ∧
    replayCompactActions [str "x@e4"] = replayCompactActions [str "f@e4"] ∧
    ((replayCompactActions [str "x@e4"]).toOption.map
      fun s => s.spells.white.freeze) = some 4 := by
  refine ⟨fun pfx h1 h2 => ?_, by decide, by decide⟩
  unfold spellKindOfPfx
  rw [if_neg]
  rintro (h | h) <;> [exact h1 h; exact h2 h]

/-- Witness for `c9_unknown_pfx_is_freeze`: the prefix `"x"` is mapped to
freeze. -/
theorem c9_unknown_pfx_is_freeze_witness :
    spellKindOfPfx (str "x") = SpellKind.freeze :=
  c9_unknown_pfx_is_freeze.1 (str "x") (by decide) (by decide)

-- ============================================================
-- Claim C6 — consecutive spell tokens in replay
-- ============================================================

/-- **C6, counterexample.**  The compact action list `["j@e2", "f@e4"]`
contains two consecutive spell tokens with no intervening move token, yet
`replayCompactActions` does not raise any error: it succeeds, applying both
spells (white's jump count drops to 1, freeze count to 4, and two active
spells are recorded), the second merely overwriting the pending notation. -/
theorem c6_counterexample :
    ((replayCompactActions [str "j@e2", str "f@e4"]).toOption.map
      fun s => (s.spells.white.jump, s.spells.white.freeze, s.activeSpells.length)) =
      some (1, 4, 2) := by decide

/-- **C6, amended.**  The replay driver never consults the pending spell
slot when processing a spell token (so a second consecutive spell token is
not a parse error: it overwrites the pending notation while both casts'
state effects are applied, as the replay of `["j@e2", "f@e4"]` shows; a
second cast of the same spell kind could fail only through the spell's own
availability check inside `applySpell`). -/
theorem c6_amended :
    (∀ (s : GameState) (pend1 pend2 : Option Str) (a : Str),
      toUpperStr a ≠ str "R" → a.contains '@' = true →
      replayStep s pend1 a = replayStep s pend2 a) ∧
    ((replayCompactActions [str "j@e2", str "f@e4"]).toOption.map
      fun s => s.activeSpells.map fun sp => sp.type) =
      some [SpellKind.jump, SpellKind.freeze] := by
  refine ⟨fun s pend1 pend2 a h1 h2 => ?_, by decide⟩
  unfold replayStep
  rw [if_neg h1, if_neg h1, if_pos h2, if_pos h2]

/-- Witness for `c6_amended`: processing the spell token `"f@e4"` from the
initial state gives the same outcome whatever notation is pending. -/
theorem c6_amended_witness :
    replayStep createInitialGameState none (str "f@e4") =
      replayStep createInitialGameState (some (str "jump@e2")) (str "f@e4") :=
  c6_amended.1 createInitialGameState none (some (str "jump@e2")) (str "f@e4")
    (by decide) (by decide)

-- ============================================================
-- Claim C3 — actions after game over
-- ============================================================

/-- **C3, counterexample.**  On the finished state `applyResign(initial)`
(`is_game_over = true`), the move e2–e4 is accepted by `applyMove` (a
successful, finalized result whose state still has `is_game_over = true`),
and `applySpell` likewise casts a jump successfully; neither returns an
error of any kind, contradicting the claimed GameOver rejection. -/
theorem c3_counterexample :
    ((applyMove (applyResign createInitialGameState) 6 4 4 4 none none).getDone.map
      fun s => s.isGameOver) = some true ∧
    ((applySpell (applyResign createInitialGameState) SpellKind.jump 6 0).getOk.map
      fun sn => sn.1.isGameOver) = some true := by
  exact ⟨by decide, by decide⟩

/-- **C3, amended.**  The engine's `applyMove` and `applySpell` do not
check `is_game_over` and can succeed on a finished game; rejection of
post-game actions is left to callers, and in the engine itself only the
replay driver guards: once a replayed state has `is_game_over = true`,
`replayGo` ignores every remaining token and returns the state unchanged. -/
theorem c3_amended :
    ∀ (s : GameState) (pending : Option Str) (toks : List Str),
      s.isGameOver = true → replayGo s pending toks = .ok (s, pending) := by
  intro s pending toks h
  cases toks with
  | nil => rfl
  | cons a rest => simp [replayGo, h]

/-- Witness for `c3_amended`: replaying `["e2-e4"]` from the resigned
initial state leaves it untouched. -/
theorem c3_amended_witness :
    replayGo (applyResign createInitialGameState) none [str "e2-e4"] =
      .ok (applyResign createInitialGameState, none) :=
  c3_amended (applyResign createInitialGameState) none [str "e2-e4"] (by decide)

-- ============================================================
-- Claim C1 — log fidelity (counterexample part)
-- ============================================================

/-- **C1, counterexample.**  A successful public operation that leaves no
promotion pending can break log fidelity: after `applySpell(initial,
freeze, e4)` the state `S` has `awaiting_promotion = none`, white's freeze
count 4, and an *empty* compact action log (spell tokens are only logged by
the following move's finalization) — so replaying its log gives the initial
state back, whose freeze count 5 differs from `S`'s spells. -/
theorem c1_counterexample :
    ((applySpell createInitialGameState SpellKind.freeze 4 4).getOk.map
      fun sn => (sn.1.awaitingPromotion, compactTokens sn.1.moveLog,
                 sn.1.spells.white.freeze)) = some (none, [], 4) ∧
    replayCompactActions [] = .ok createInitialGameState ∧
    createInitialGameState.spells.white.freeze = 5 := by
  exact ⟨by decide, by decide, by decide⟩

-- ============================================================
-- Claim C2 — kings and the freeze zone
-- ============================================================

/-- If `board[r][c]` holds a piece then `(r, c)` is on the board. -/
theorem boardGet_some_range {b : Board} {r c : Int} {p : Piece}
    (h : boardGet b r c = some p) : 0 ≤ r ∧ r < 8 ∧ 0 ≤ c ∧ c < 8 := by
  by_contra hn
  rw [boardGet, if_neg hn] at h
  exact Option.noConfusion h

/-- A test position: white king on e1, black king on a8, and an active
freeze spell centered on e2 whose 3×3 zone covers e1. -/
def c2Board : Board :=
  [[some { type := str "k", color := .black, id := 0, isFrozen := false,
           isJumpable := false, hasMoved := true },
    none, none, none, none, none, none, none],
   [none, none, none, none, none, none, none, none],
   [none, none, none, none, none, none, none, none],
   [none, none, none, none, none, none, none, none],
   [none, none, none, none, none, none, none, none],
   [none, none, none, none, none, none, none, none],
   [none, none, none, none, none, none, none, none],
   [none, none, none, none,
    some { type := str "K", color := .white, id := 1, isFrozen := false,
           isJumpable := false, hasMoved := true },
    none, none, none]]

def c2State : GameState :=
  { board := c2Board
    currentPlayer := .white
    gameTurnNumber := 1
    plyCount := 0
    spells :=
      { white := { jump := 2, freeze := 5, jumpLastUsedTurn := 0, freezeLastUsedTurn := 0 }
        black := { jump := 2, freeze := 5, jumpLastUsedTurn := 0, freezeLastUsedTurn := 0 } }
    activeSpells := [{ type := .freeze, targetSquare := some (6, 4),
                       affectedPieceIds := [1], expiresAtPly := 2 }]
    moveLog := []
    enPassantTarget := none
    castlingRights := { whiteK := false, whiteQ := false, blackK := false, blackQ := false }
    isGameOver := false
    gameEndMessage := []
    awaitingPromotion := none
    history := []
    repetitionCounter := [] }

/-- **C2, counterexample.**  In `c2State` an active freeze zone (centered
on e2) covers white's king on e1; the king is *not* exempt from the freeze
for movement: the otherwise-legal king move e1–d1 is rejected by
`isValidMove` exactly on account of the freeze zone (it is accepted with
the spell removed), and `hasLegalMoves` likewise drops from true to false
when the zone is active — refuting the claimed movement exemption. -/
theorem c2_counterexample :
    isSquareUnderActiveFreeze 7 4 c2State.activeSpells c2State.plyCount = true ∧
    ((boardGet c2State.board 7 4).map fun p => (p.type, p.color)) =
      some (str "K", Color.white) ∧
    isValidMove 7 4 7 3 c2State.board .white none c2State.castlingRights
      c2State.activeSpells c2State.plyCount = false ∧
    isValidMove 7 4 7 3 c2State.board .white none c2State.castlingRights
      [] c2State.plyCount = true ∧
    hasLegalMoves .white c2State = false ∧
    hasLegalMoves .white { c2State with activeSpells := [] } = true := by
  exact ⟨by decide, by decide, by decide, by decide, by decide, by decide⟩

/-- **C2, amended.**  Kings are exempt from freeze for *attack* purposes
only: `isSquareAttacked` counts a king's attacks whatever `activeSpells`
contains and whatever its frozen status (first conjunct) — hence a frozen
king still gives check — while for *movement* `isValidMove` rejects every
move of every frozen piece, kings included (second conjunct; the standard
scan of `hasLegalMoves` skips such pieces the same way). -/
theorem c2_amended :
    (∀ (targetR targetC r c : Int) (col : Color) (b : Board)
        (ep : Option (Int × Int)) (as : List ActiveSpell) (ply : Nat) (pc : Piece),
      boardGet b r c = some pc → pc.color = col → toLowerStr pc.type = str "k" →
      (targetR - r).natAbs ≤ 1 → (targetC - c).natAbs ≤ 1 →
      isSquareAttacked targetR targetC col b ep as ply = true) ∧
    (∀ (fromR fromC toR toC : Int) (b : Board) (player : Color)
        (ep : Option (Int × Int)) (cr : CastlingRights)
        (as : List ActiveSpell) (ply : Nat) (p : Piece),
      boardGet b fromR fromC = some p →
      (p.isFrozen || isSquareUnderActiveFreeze fromR fromC as ply) = true →
      isValidMove fromR fromC toR toC b player ep cr as ply = false) := by
  constructor
  · intro targetR targetC r c col b ep as ply pc hb hcol htype hdr hdc
    obtain ⟨hr0, hr8, hc0, hc8⟩ := boardGet_some_range hb
    rw [isSquareAttacked, List.any_eq_true]
    refine ⟨r.toNat, List.mem_range.mpr (by omega), ?_⟩
    rw [List.any_eq_true]
    refine ⟨c.toNat, List.mem_range.mpr (by omega), ?_⟩
    rw [Int.toNat_of_nonneg hr0, Int.toNat_of_nonneg hc0]
    have hkp : (str "k" = str "p") = False := by decide
    have hkn : (str "k" = str "n") = False := by decide
    have hkk : (str "k" = str "k") = True := by decide
    simp only [pieceAttacks, hb, hcol, htype, hkp, hkn, hkk, ne_eq, not_true,
      eq_self_iff_true, and_false, if_false, if_true, not_false_iff,
      ite_true, ite_false]
    exact decide_eq_true ⟨hdr, hdc⟩
  · intro fromR fromC toR toC b player ep cr as ply p hb hfr
    by_cases hcol : p.color = player
    · simp only [isValidMove, hb]
      rw [if_neg (by simp [hcol]), if_pos hfr]
    · simp only [isValidMove, hb]
      rw [if_pos (by simp [hcol])]

/-- Witness for `c2_amended`: in `c2State` the frozen king on e1 still
attacks d2, and its move e1–e2 is rejected. -/
theorem c2_amended_witness :
    isSquareAttacked 6 3 Color.white c2State.board none c2State.activeSpells 0 = true ∧
    isValidMove 7 4 6 4 c2State.board Color.white none c2State.castlingRights
      c2State.activeSpells 0 = false :=
  ⟨c2_amended.1 6 3 7 4 Color.white c2State.board none c2State.activeSpells 0
      { type := str "K", color := .white, id := 1, isFrozen := false,
        isJumpable := false, hasMoved := true }
      (by decide) (by decide) (by decide) (by decide) (by decide),
   c2_amended.2 7 4 6 4 c2State.board Color.white none c2State.castlingRights
      c2State.activeSpells 0
      { type := str "K", color := .white, id := 1, isFrozen := false,
        isJumpable := false, hasMoved := true }
      (by decide) (by decide)⟩

-- ============================================================
-- Claim C5 — no legal self-check
-- ============================================================

/-- A test position: white king a1, white queen g3, black rook a8 (giving
check along the a-file), black king h4 (adjacent to the queen). -/
def c5Board : Board :=
  [[some { type := str "r", color := .black, id := 0, isFrozen := false,
           isJumpable := false, hasMoved := false },
    none, none, none, none, none, none, none],
   [none, none, none, none, none, none, none, none],
   [none, none, none, none, none, none, none, none],
   [none, none, none, none, none, none, none, none],
   [none, none, none, none, none, none, none,
    some { type := str "k", color := .black, id := 1, isFrozen := false,
           isJumpable := false, hasMoved := true }],
   [none, none, none, none, none, none,
    some { type := str "Q", color := .white, id := 2, isFrozen := false,
           isJumpable := false, hasMoved := true },
    none],
   [none, none, none, none, none, none, none, none],
   [some { type := str "K", color := .white, id := 3, isFrozen := false,
           isJumpable := false, hasMoved := true },
    none, none, none, none, none, none, none]]

def c5CR : CastlingRights :=
  { whiteK := false, whiteQ := false, blackK := false, blackQ := false }

def c5State : GameState :=
  { board := c5Board
    currentPlayer := .white
    gameTurnNumber := 1
    plyCount := 0
    spells :=
      { white := { jump := 2, freeze := 5, jumpLastUsedTurn := 0, freezeLastUsedTurn := 0 }
        black := { jump := 2, freeze := 5, jumpLastUsedTurn := 0, freezeLastUsedTurn := 0 } }
    activeSpells := []
    moveLog := []
    enPassantTarget := none
    castlingRights := c5CR
    isGameOver := false
    gameEndMessage := []
    awaitingPromotion := none
    history := []
    repetitionCounter := [] }

/-- **C5, counterexample.**  The queen move g3×h4 captures the black king
and is accepted by `isValidMove` (and by `applyMove`) although white's own
king on a1 is attacked by the a8 rook both before and after the move: a
king-capturing move skips the king-safety simulation entirely, so "no
accepted move leaves the mover in check, *including* moves that capture
the opponent's king" is false. -/
theorem c5_counterexample :
    isValidMove 5 6 4 7 c5Board .white none c5CR [] 0 = true ∧
    ((boardGet c5Board 4 7).map fun p => toLowerStr p.type) = some (str "k") ∧
    isSquareAttacked 7 0 .black
      (simBoard c5Board 5 6 4 7 (str "q") none) none [] 0 = true ∧
    isKingInCheck .white
      (simBoard c5Board 5 6 4 7 (str "q") none) none [] 0 = true ∧
    ((applyMove c5State 5 6 4 7 none none).getDone.map
      fun s => (s.isGameOver, s.gameEndMessage,
                isKingInCheck .white s.board none s.activeSpells s.plyCount)) =
      some (true, str "White wins by king capture!", true) := by
  exact ⟨by decide, by decide, by decide, by decide, by decide⟩

/-- **C5, amended.**  For every accepted move that neither captures a king
nor takes the castling branch, the mover's king is safe in the engine's
simulated resulting position: on `simBoard` (the move performed, with
en-passant removal), evaluated with the validation-time active spells and
ply, the square of the first mover-colored king is not attacked.  Moves
that capture the opponent's king skip this check and are always allowed;
castling is validated separately on the pre-move board (claim C7). -/
theorem c5_amended :
    ∀ (fromR fromC toR toC : Int) (b : Board) (player : Color)
      (ep : Option (Int × Int)) (cr : CastlingRights)
      (as : List ActiveSpell) (ply : Nat) (moving : Piece) (kr kc : Int),
    boardGet b fromR fromC = some moving →
    isValidMove fromR fromC toR toC b player ep cr as ply = true →
    ¬(toLowerStr moving.type = str "k" ∧ (toC - fromC).natAbs = 2 ∧ fromR = toR) →
    (∀ tp, boardGet b toR toC = some tp → toLowerStr tp.type ≠ str "k") →
    findKingPos (simBoard b fromR fromC toR toC (toLowerStr moving.type) ep)
        (if player = .white then str "K" else str "k") = some (kr, kc) →
    isSquareAttacked kr kc player.other
      (simBoard b fromR fromC toR toC (toLowerStr moving.type) ep)
      none as ply = false := by
  intro fromR fromC toR toC b player ep cr as ply moving kr kc
  intro hb hvalid hncastle hnk hfind
  unfold isValidMove at hvalid
  rw [hb] at hvalid
  split at hvalid
  next heq => exact Option.noConfusion heq
  next mv heq =>
  obtain rfl : moving = mv := by injection heq
  by_cases h1 : moving.color ≠ player
  · rw [if_pos h1] at hvalid; exact absurd hvalid (by decide)
  rw [if_neg h1] at hvalid
  by_cases h2 : (moving.isFrozen || isSquareUnderActiveFreeze fromR fromC as ply) = true
  · rw [if_pos h2] at hvalid; exact absurd hvalid (by decide)
  rw [if_neg h2] at hvalid
  by_cases h3 : fromR = toR ∧ fromC = toC
  · rw [if_pos h3] at hvalid; exact absurd hvalid (by decide)
  rw [if_neg h3] at hvalid
  simp only [] at hvalid
  by_cases h4 : Option.any (fun tp => decide (tp.color = moving.color))
      (boardGet b toR toC) = true
  · rw [if_pos h4] at hvalid; exact absurd hvalid (by decide)
  rw [if_neg h4] at hvalid
  split at hvalid
  · next hc => exact absurd hc hncastle
  split at hvalid
  · exact absurd hvalid (by decide)
  split at hvalid
  · next hk =>
    exfalso
    cases htp : boardGet b toR toC with
    | none => rw [htp] at hk; exact absurd hk (by decide)
    | some tp =>
      rw [htp] at hk
      simp only [Option.any_some, decide_eq_true_eq] at hk
      exact hnk tp htp hk
  split at hvalid
  · next heq2 => rw [hfind] at heq2; exact Option.noConfusion heq2
  · next kp heq2 =>
    rw [hfind] at heq2
    obtain rfl : (kr, kc) = kp := by injection heq2
    simpa using hvalid

/-- Witness for `c5_amended`: the accepted opening move e2–e4 (no king
capture, not castling) leaves white's king on e1 unattacked in the
simulated resulting position. -/
theorem c5_amended_witness :
    isSquareAttacked 7 4 Color.white.other
      (simBoard createInitialGameState.board 6 4 4 4 (toLowerStr (str "P")) none)
      none [] 0 = false :=
  c5_amended 6 4 4 4 createInitialGameState.board .white none
    createInitialGameState.castlingRights [] 0
    { type := str "P", color := .white, id := 52, isFrozen := false,
      isJumpable := false, hasMoved := false }
    7 4 (by decide) (by decide) (by decide)
    (by
      intro tp h
      rw [show boardGet createInitialGameState.board (4 : Int) (4 : Int) = none from by decide] at h
      exact Option.noConfusion h)
    (by decide)

-- ============================================================
-- Claim C7 — castling conditions
-- ============================================================

set_option maxHeartbeats 1000000 in
/-- The kingside branch of `checkCastleConditions`, characterized: with the
king on the e-file, castling e→g is allowed iff the king is unmoved and not
in check, the kingside right is set, an unmoved rook stands on the h-file
corner, f- and g-squares are empty, and neither is attacked. -/
theorem castleKingsideIff (fromR : Int) (b : Board) (player : Color)
    (cr : CastlingRights) (as : List ActiveSpell) (ply : Nat)
    (ep : Option (Int × Int)) (king : Piece)
    (hb : boardGet b fromR 4 = some king) :
    checkCastleConditions fromR 4 fromR 6 b player cr as ply ep = true ↔
      (king.hasMoved = false ∧
       isKingInCheck player b ep as ply = false ∧
       (if player = .white then cr.whiteK else cr.blackK) = true ∧
       (∃ rk, boardGet b fromR 7 = some rk ∧ toLowerStr rk.type = str "r" ∧
         rk.hasMoved = false) ∧
       boardGet b fromR 5 = none ∧ boardGet b fromR 6 = none ∧
       isSquareAttacked fromR 5 player.other b ep as ply = false ∧
       isSquareAttacked fromR 6 player.other b ep as ply = false) := by
  unfold checkCastleConditions
  rw [hb]
  simp only [show ((4:Int) + 1) = 5 from by norm_num,
    show ((4:Int) + 2) = 6 from by norm_num]
  constructor
  · intro h
    by_cases c1 : king.hasMoved = true
    · rw [if_pos c1] at h; exact absurd h (by decide)
    rw [if_neg c1] at h
    by_cases c2 : isKingInCheck player b ep as ply = true
    · rw [if_pos c2] at h; exact absurd h (by decide)
    rw [if_neg c2] at h
    rw [if_pos (by norm_num : (4:Int) < 6)] at h
    by_cases c3 : player = Color.white ∧ cr.whiteK = false
    · rw [if_pos c3] at h; exact absurd h (by decide)
    rw [if_neg c3] at h
    by_cases c4 : player = Color.black ∧ cr.blackK = false
    · rw [if_pos c4] at h; exact absurd h (by decide)
    rw [if_neg c4] at h
    rcases hrk2 : boardGet b fromR 7 with _ | rook
    · simp only [hrk2] at h; exact absurd h (by decide)
    simp only [hrk2] at h
    by_cases c5 : toLowerStr rook.type ≠ str "r" ∨ rook.hasMoved = true
    · rw [if_pos c5] at h; exact absurd h (by decide)
    rw [if_neg c5] at h
    by_cases c6 : (boardGet b fromR 5).isSome = true ∨ (boardGet b fromR 6).isSome = true
    · rw [if_pos c6] at h; exact absurd h (by decide)
    rw [if_neg c6] at h
    by_cases c7 : isSquareAttacked fromR 5 player.other b ep as ply = true ∨
        isSquareAttacked fromR 6 player.other b ep as ply = true
    · rw [if_pos c7] at h; exact absurd h (by decide)
    rw [not_or] at c5 c6 c7
    refine ⟨by simpa using c1, by simpa using c2, ?_,
      ⟨rook, rfl, by simpa using c5.1, by simpa using c5.2⟩,
      by simpa using c6.1, by simpa using c6.2,
      by simpa using c7.1, by simpa using c7.2⟩
    cases player
    · rw [if_pos rfl]
      by_contra hc
      exact c3 ⟨rfl, by simpa using hc⟩
    · rw [if_neg (by decide)]
      by_contra hc
      exact c4 ⟨rfl, by simpa using hc⟩
  · rintro ⟨h1, h2, h3, ⟨rk, hrk, hrt, hrm⟩, h5, h6, h7, h8⟩
    rw [if_neg (by simp [h1])]
    rw [if_neg (by simp [h2])]
    rw [if_pos (by norm_num : (4:Int) < 6)]
    rw [if_neg (show ¬(player = Color.white ∧ cr.whiteK = false) by
      rintro ⟨hp, hc⟩; rw [hp, if_pos rfl] at h3; rw [h3] at hc; exact absurd hc (by decide))]
    rw [if_neg (show ¬(player = Color.black ∧ cr.blackK = false) by
      rintro ⟨hp, hc⟩; rw [hp, if_neg (by decide)] at h3; rw [h3] at hc
      exact absurd hc (by decide))]
    simp only [hrk]
    rw [if_neg (show ¬(toLowerStr rk.type ≠ str "r" ∨ rk.hasMoved = true) by
      rintro (hc | hc); exact hc hrt; rw [hrm] at hc; exact absurd hc (by decide))]
    rw [if_neg (by simp [h5, h6])]
    rw [if_neg (by simp [h7, h8])]

set_option maxHeartbeats 1000000 in
theorem castleQueensideIff (fromR : Int) (b : Board) (player : Color)
    (cr : CastlingRights) (as : List ActiveSpell) (ply : Nat)
    (ep : Option (Int × Int)) (king : Piece)
    (hb : boardGet b fromR 4 = some king) :
    checkCastleConditions fromR 4 fromR 2 b player cr as ply ep = true ↔
      (king.hasMoved = false ∧
       isKingInCheck player b ep as ply = false ∧
       (if player = .white then cr.whiteQ else cr.blackQ) = true ∧
       (∃ rk, boardGet b fromR 0 = some rk ∧ toLowerStr rk.type = str "r" ∧
         rk.hasMoved = false) ∧
       boardGet b fromR 3 = none ∧ boardGet b fromR 2 = none ∧
       boardGet b fromR 1 = none ∧
       isSquareAttacked fromR 3 player.other b ep as ply = false ∧
       isSquareAttacked fromR 2 player.other b ep as ply = false) := by
  unfold checkCastleConditions
  rw [hb]
  simp only [show ((4:Int) - 1) = 3 from by norm_num,
    show ((4:Int) - 2) = 2 from by norm_num,
    show ((4:Int) - 3) = 1 from by norm_num]
  constructor
  · intro h
    by_cases c1 : king.hasMoved = true
    · rw [if_pos c1] at h; exact absurd h (by decide)
    rw [if_neg c1] at h
    by_cases c2 : isKingInCheck player b ep as ply = true
    · rw [if_pos c2] at h; exact absurd h (by decide)
    rw [if_neg c2] at h
    rw [if_neg (by norm_num : ¬((4:Int) < 2))] at h
    by_cases c3 : player = Color.white ∧ cr.whiteQ = false
    · rw [if_pos c3] at h; exact absurd h (by decide)
    rw [if_neg c3] at h
    by_cases c4 : player = Color.black ∧ cr.blackQ = false
    · rw [if_pos c4] at h; exact absurd h (by decide)
    rw [if_neg c4] at h
    rcases hrk2 : boardGet b fromR 0 with _ | rook
    · simp only [hrk2] at h; exact absurd h (by decide)
    simp only [hrk2] at h
    by_cases c5 : toLowerStr rook.type ≠ str "r" ∨ rook.hasMoved = true
    · rw [if_pos c5] at h; exact absurd h (by decide)
    rw [if_neg c5] at h
    by_cases c6 : (boardGet b fromR 3).isSome = true ∨ (boardGet b fromR 2).isSome = true ∨
        (boardGet b fromR 1).isSome = true
    · rw [if_pos c6] at h; exact absurd h (by decide)
    rw [if_neg c6] at h
    by_cases c7 : isSquareAttacked fromR 3 player.other b ep as ply = true ∨
        isSquareAttacked fromR 2 player.other b ep as ply = true
    · rw [if_pos c7] at h; exact absurd h (by decide)
    rw [not_or] at c5 c7
    rw [not_or, not_or] at c6
    refine ⟨by simpa using c1, by simpa using c2, ?_,
      ⟨rook, rfl, by simpa using c5.1, by simpa using c5.2⟩,
      by simpa using c6.1, by simpa using c6.2.1, by simpa using c6.2.2,
      by simpa using c7.1, by simpa using c7.2⟩
    cases player
    · rw [if_pos rfl]
      by_contra hc
      exact c3 ⟨rfl, by simpa using hc⟩
    · rw [if_neg (by decide)]
      by_contra hc
      exact c4 ⟨rfl, by simpa using hc⟩
  · rintro ⟨h1, h2, h3, ⟨rk, hrk, hrt, hrm⟩, h5, h6, h7, h8, h9⟩
    rw [if_neg (by simp [h1])]
    rw [if_neg (by simp [h2])]
    rw [if_neg (by norm_num : ¬((4:Int) < 2))]
    rw [if_neg (show ¬(player = Color.white ∧ cr.whiteQ = false) by
      rintro ⟨hp, hc⟩; rw [hp, if_pos rfl] at h3; rw [h3] at hc; exact absurd hc (by decide))]
    rw [if_neg (show ¬(player = Color.black ∧ cr.blackQ = false) by
      rintro ⟨hp, hc⟩; rw [hp, if_neg (by decide)] at h3; rw [h3] at hc
      exact absurd hc (by decide))]
    simp only [hrk]
    rw [if_neg (show ¬(toLowerStr rk.type ≠ str "r" ∨ rk.hasMoved = true) by
      rintro (hc | hc); exact hc hrt; rw [hrm] at hc; exact absurd hc (by decide))]
    rw [if_neg (by simp [h5, h6, h7])]
    rw [if_neg (by simp [h8, h9])]

set_option maxHeartbeats 1000000 in
/-- **C7, amended.**  `isValidMove` accepts the two-file king move from the
king's home file exactly when *all* of: the king's square is not frozen
(`is_frozen` unset and outside every active freeze zone) — the condition the
original claim omits — the king has not moved; the corner rook is present,
rook-typed and unmoved; the corresponding castling right is set; the king is
not currently in check; the squares between king and rook are empty (on the
queenside this includes the b-file square); and neither the transit square
nor the destination square is attacked by the opponent (the b-file square is
not attack-checked). -/
theorem c7_amended :
    (∀ (fromR : Int) (b : Board) (player : Color) (ep : Option (Int × Int))
        (cr : CastlingRights) (as : List ActiveSpell) (ply : Nat) (king : Piece),
      boardGet b fromR 4 = some king → toLowerStr king.type = str "k" →
      king.color = player →
      (isValidMove fromR 4 fromR 6 b player ep cr as ply = true ↔
        ((king.isFrozen || isSquareUnderActiveFreeze fromR 4 as ply) = false ∧
         king.hasMoved = false ∧
         isKingInCheck player b ep as ply = false ∧
         (if player = .white then cr.whiteK else cr.blackK) = true ∧
         (∃ rk, boardGet b fromR 7 = some rk ∧ toLowerStr rk.type = str "r" ∧
           rk.hasMoved = false) ∧
         boardGet b fromR 5 = none ∧ boardGet b fromR 6 = none ∧
         isSquareAttacked fromR 5 player.other b ep as ply = false ∧
         isSquareAttacked fromR 6 player.other b ep as ply = false))) ∧
    (∀ (fromR : Int) (b : Board) (player : Color) (ep : Option (Int × Int))
        (cr : CastlingRights) (as : List ActiveSpell) (ply : Nat) (king : Piece),
      boardGet b fromR 4 = some king → toLowerStr king.type = str "k" →
      king.color = player →
      (isValidMove fromR 4 fromR 2 b player ep cr as ply = true ↔
        ((king.isFrozen || isSquareUnderActiveFreeze fromR 4 as ply) = false ∧
         king.hasMoved = false ∧
         isKingInCheck player b ep as ply = false ∧
         (if player = .white then cr.whiteQ else cr.blackQ) = true ∧
         (∃ rk, boardGet b fromR 0 = some rk ∧ toLowerStr rk.type = str "r" ∧
           rk.hasMoved = false) ∧
         boardGet b fromR 3 = none ∧ boardGet b fromR 2 = none ∧
         boardGet b fromR 1 = none ∧
         isSquareAttacked fromR 3 player.other b ep as ply = false ∧
         isSquareAttacked fromR 2 player.other b ep as ply = false))) := by
  constructor
  · intro fromR b player ep cr as ply king hb hk hcol
    unfold isValidMove
    rw [hb]
    simp only [] 
    rw [if_neg (by simp [hcol])]
    by_cases cF : (king.isFrozen || isSquareUnderActiveFreeze fromR 4 as ply) = true
    · rw [if_pos cF]
      simp [cF]
    rw [if_neg cF]
    rw [Bool.not_eq_true] at cF
    rw [if_neg (by rintro ⟨-, h⟩; exact absurd h (by decide))]
    by_cases cT : (Option.any (fun tp => decide (tp.color = king.color))
        (boardGet b fromR 6)) = true
    · rw [if_pos cT]
      rcases hg : boardGet b fromR 6 with _ | tp
      · rw [hg] at cT; simp at cT
      · constructor
        · intro hfalse; exact absurd hfalse (by decide)
        · rintro ⟨-, -, -, -, -, -, hnone, -, -⟩
          exact Option.noConfusion hnone
    · rw [if_neg cT]
      have hcond : toLowerStr king.type = str "k" ∧ (((6:Int)) - 4).natAbs = 2 ∧ True :=
        ⟨hk, by decide, trivial⟩
      rw [if_pos hcond]
      rw [castleKingsideIff fromR b player cr as ply ep king hb]
      simp [cF]
  · intro fromR b player ep cr as ply king hb hk hcol
    unfold isValidMove
    rw [hb]
    simp only [] 
    rw [if_neg (by simp [hcol])]
    by_cases cF : (king.isFrozen || isSquareUnderActiveFreeze fromR 4 as ply) = true
    · rw [if_pos cF]
      simp [cF]
    rw [if_neg cF]
    rw [Bool.not_eq_true] at cF
    rw [if_neg (by rintro ⟨-, h⟩; exact absurd h (by decide))]
    by_cases cT : (Option.any (fun tp => decide (tp.color = king.color))
        (boardGet b fromR 2)) = true
    · rw [if_pos cT]
      rcases hg : boardGet b fromR 2 with _ | tp
      · rw [hg] at cT; simp at cT
      · constructor
        · intro hfalse; exact absurd hfalse (by decide)
        · rintro ⟨-, -, -, -, -, -, hnone, -, -, -⟩
          exact Option.noConfusion hnone
    · rw [if_neg cT]
      have hcond : toLowerStr king.type = str "k" ∧ (((2:Int)) - 4).natAbs = 2 ∧ True :=
        ⟨hk, by decide, trivial⟩
      rw [if_pos hcond]
      rw [castleQueensideIff fromR b player cr as ply ep king hb]
      simp [cF]

/-- A castling-ready position: white Ke1 and Rh1 both unmoved, f1/g1
empty, black king on a8; an active freeze centered on e2 covers e1. -/
def c7Board : Board :=
  [[some { type := str "k", color := .black, id := 0, isFrozen := false,
           isJumpable := false, hasMoved := true },
    none, none, none, none, none, none, none],
   [none, none, none, none, none, none, none, none],
   [none, none, none, none, none, none, none, none],
   [none, none, none, none, none, none, none, none],
   [none, none, none, none, none, none, none, none],
   [none, none, none, none, none, none, none, none],
   [none, none, none, none, none, none, none, none],
   [none, none, none, none,
    some { type := str "K", color := .white, id := 1, isFrozen := false,
           isJumpable := false, hasMoved := false },
    none, none,
    some { type := str "R", color := .white, id := 2, isFrozen := false,
           isJumpable := false, hasMoved := false }]]

def c7CR : CastlingRights :=
  { whiteK := true, whiteQ := true, blackK := true, blackQ := true }

def c7Spells : List ActiveSpell :=
  [{ type := .freeze, targetSquare := some (6, 4), affectedPieceIds := [1],
     expiresAtPly := 2 }]

/-- **C7, counterexample.**  In the `c7Board` position every condition the
claim lists holds — unmoved king on e1, unmoved rook on h1, kingside right
set, king not in check, f1/g1 empty and unattacked — yet `isValidMove`
rejects e1–g1, because an active freeze zone covers the king's square: the
claim's list of conditions is not sufficient ("exactly when" fails). -/
theorem c7_counterexample :
    ((boardGet c7Board 7 4).map fun p => (p.type, p.hasMoved)) =
      some (str "K", false) ∧
    ((boardGet c7Board 7 7).map fun p => (toLowerStr p.type, p.hasMoved)) =
      some (str "r", false) ∧
    c7CR.whiteK = true ∧
    isKingInCheck .white c7Board none c7Spells 0 = false ∧
    boardGet c7Board 7 5 = none ∧ boardGet c7Board 7 6 = none ∧
    isSquareAttacked 7 5 Color.black c7Board none c7Spells 0 = false ∧
    isSquareAttacked 7 6 Color.black c7Board none c7Spells 0 = false ∧
    isValidMove 7 4 7 6 c7Board .white none c7CR c7Spells 0 = false := by
  exact ⟨by decide, by decide, by decide, by decide, by decide, by decide,
    by decide, by decide, by decide⟩

/-- Witness for `c7_amended`: the kingside characterization instantiated on
`c7Board` with no active spells. -/
theorem c7_amended_witness :
    isValidMove 7 4 7 6 c7Board Color.white none c7CR [] 0 = true ↔
      (({ type := str "K", color := Color.white, id := 1, isFrozen := false,
          isJumpable := false, hasMoved := false } : Piece).isFrozen ||
        isSquareUnderActiveFreeze 7 4 [] 0) = false ∧
      ({ type := str "K", color := Color.white, id := 1, isFrozen := false,
          isJumpable := false, hasMoved := false } : Piece).hasMoved = false ∧
      isKingInCheck Color.white c7Board none [] 0 = false ∧
      (if Color.white = Color.white then c7CR.whiteK else c7CR.blackK) = true ∧
      (∃ rk, boardGet c7Board 7 7 = some rk ∧ toLowerStr rk.type = str "r" ∧
        rk.hasMoved = false) ∧
      boardGet c7Board 7 5 = none ∧ boardGet c7Board 7 6 = none ∧
      isSquareAttacked 7 5 Color.white.other c7Board none [] 0 = false ∧
      isSquareAttacked 7 6 Color.white.other c7Board none [] 0 = false :=
  c7_amended.1 7 c7Board Color.white none c7CR [] 0
    { type := str "K", color := Color.white, id := 1, isFrozen := false,
      isJumpable := false, hasMoved := false }
    (by decide) (by decide) (by decide)

-- ============================================================
-- Claim C8 — active-spell lifetime
-- ============================================================

/-- Reading back the square just written, provided that square held a
piece before (so the row exists and the write lands). -/
theorem boardGet_boardSet_self {b : Board} {r c : Int} {p : Piece}
    (v : Option Piece) (h : boardGet b r c = some p) :
    boardGet (boardSet b r c v) r c = v := by
  obtain ⟨hr0, hr8, hc0, hc8⟩ := boardGet_some_range h
  rw [boardGet, if_pos ⟨hr0, hr8, hc0, hc8⟩] at h
  rw [boardSet, if_pos ⟨hr0, hr8, hc0, hc8⟩, boardGet, if_pos ⟨hr0, hr8, hc0, hc8⟩]
  have hrlen : r.toNat < b.length := by
    by_contra hlen
    have hrow : b.getD r.toNat [] = [] := List.getD_eq_default _ _ (by omega)
    rw [hrow] at h
    simp at h
  have hclen : c.toNat < (b.getD r.toNat []).length := by
    by_contra hlen
    have hcell : (b.getD r.toNat []).getD c.toNat none = none :=
      List.getD_eq_default _ _ (by omega)
    rw [hcell] at h
    exact Option.noConfusion h
  rw [List.getD_eq_getElem b [] hrlen] at hclen
  simp [List.getD, List.getElem?_set, hrlen, hclen]

/-- Reading any other square after a write. -/
theorem boardGet_boardSet_ne {b : Board} {r c : Int} (r' c' : Int)
    (v : Option Piece) (hne : ¬(r' = r ∧ c' = c)) :
    boardGet (boardSet b r c v) r' c' = boardGet b r' c' := by
  rw [boardSet]
  split
  case isFalse => rfl
  case isTrue hin =>
    rw [boardGet, boardGet]
    split
    case isFalse => rfl
    case isTrue hin' =>
      by_cases hr : r'.toNat = r.toNat
      · have hreq : r' = r := by omega
        have hcne : c'.toNat ≠ c.toNat := by
          intro hceq
          exact hne ⟨hreq, by omega⟩
        by_cases hrow : r.toNat < b.length
        · rw [hr]
          simp [List.getD, List.getElem?_set, hrow,
            show c.toNat ≠ c'.toNat from fun hh => hcne hh.symm]
        · rw [List.set_eq_of_length_le (by omega)]
      · simp [List.getD, List.getElem?_set,
          show r.toNat ≠ r'.toNat from fun hh => hr hh.symm]

/-- `clearJumpableById` only toggles a jumpable flag: every square holds
either its old content or its old piece with `isJumpable` cleared. -/
theorem boardGet_clearJumpable_cases (b : Board) (j : Nat) (r c : Int) :
    boardGet (clearJumpableById b j) r c = boardGet b r c ∨
    ∃ p, boardGet b r c = some p ∧
      boardGet (clearJumpableById b j) r c = some { p with isJumpable := false } := by
  unfold clearJumpableById
  cases hf : findPieceByIdPos b j with
  | none => exact Or.inl rfl
  | some rc =>
    obtain ⟨pr, pc⟩ := rc
    simp only []
    cases hp : boardGet b (pr : Int) (pc : Int) with
    | none => exact Or.inl rfl
    | some p =>
      by_cases hsq : r = (pr : Int) ∧ c = (pc : Int)
      · obtain ⟨h1, h2⟩ := hsq
        subst h1; subst h2
        exact Or.inr ⟨p, hp, boardGet_boardSet_self _ hp⟩
      · exact Or.inl (boardGet_boardSet_ne r c _ hsq)

/-- `findSome?` only depends on the function's values on the list. -/
theorem findSomeCongr {α β : Type} {l : List α} {f g : α → Option β}
    (h : ∀ x ∈ l, f x = g x) : l.findSome? f = l.findSome? g := by
  induction l with
  | nil => rfl
  | cons a rest ih =>
    rw [List.findSome?_cons, List.findSome?_cons, h a (by simp)]
    cases g a with
    | none => exact ih fun x hx => h x (by simp [hx])
    | some b => rfl

/-- Clearing a jumpable flag never changes which square a piece id is
found at. -/
theorem findPieceByIdPos_clearJumpable (b : Board) (j i : Nat) :
    findPieceByIdPos (clearJumpableById b j) i = findPieceByIdPos b i := by
  unfold findPieceByIdPos
  apply findSomeCongr
  intro r _
  apply findSomeCongr
  intro c _
  rcases boardGet_clearJumpable_cases b j (r : Int) (c : Int) with heq | ⟨p, hp, hp'⟩
  · rw [heq]
  · rw [hp, hp']

/-- If a piece id is found somewhere, that square holds a piece with that
id. -/
theorem findPieceByIdPos_spec {b : Board} {i : Nat} {rc : Nat × Nat}
    (h : findPieceByIdPos b i = some rc) :
    ∃ p, boardGet b (rc.1 : Int) (rc.2 : Int) = some p ∧ p.id = i := by
  unfold findPieceByIdPos at h
  obtain ⟨r, _, hr⟩ := List.exists_of_findSome?_eq_some h
  obtain ⟨c, _, hc⟩ := List.exists_of_findSome?_eq_some hr
  cases hp : boardGet b (r : Int) (c : Int) with
  | none => rw [hp] at hc; exact Option.noConfusion hc
  | some p =>
    rw [hp] at hc
    simp only [] at hc
    by_cases hid : p.id = i
    · rw [if_pos hid] at hc
      injection hc with hc
      subst hc
      exact ⟨p, hp, hid⟩
    · rw [if_neg hid] at hc
      exact Option.noConfusion hc

/-- After `clearJumpableById b i`, the piece found under id `i` (if any)
has its jumpable flag cleared. -/
theorem clearJumpable_self_spec (b : Board) (i : Nat) :
    ∀ q, findPieceById (clearJumpableById b i) i = some q → q.isJumpable = false := by
  intro q h
  unfold findPieceById at h
  rw [findPieceByIdPos_clearJumpable] at h
  cases hf : findPieceByIdPos b i with
  | none => rw [hf] at h; exact Option.noConfusion h
  | some rc =>
    obtain ⟨pr, pc⟩ := rc
    rw [hf] at h
    simp only [Option.some_bind] at h
    obtain ⟨p, hp, _⟩ := findPieceByIdPos_spec hf
    have hb' : boardGet (clearJumpableById b i) (pr : Int) (pc : Int) =
        some { p with isJumpable := false } := by
      unfold clearJumpableById
      rw [hf]
      simp only []
      rw [hp]
      exact boardGet_boardSet_self _ hp
    rw [hb'] at h
    injection h with h
    rw [← h]

/-- Clearing any id preserves "the piece found under id `i` is not
jumpable". -/
theorem clearJumpable_preserves (b : Board) (j i : Nat)
    (hP : ∀ q, findPieceById b i = some q → q.isJumpable = false) :
    ∀ q, findPieceById (clearJumpableById b j) i = some q → q.isJumpable = false := by
  intro q h
  unfold findPieceById at h
  rw [findPieceByIdPos_clearJumpable] at h
  cases hf : findPieceByIdPos b i with
  | none => rw [hf] at h; exact Option.noConfusion h
  | some rc =>
    rw [hf] at h
    simp only [Option.some_bind] at h
    rcases boardGet_clearJumpable_cases b j (rc.1 : Int) (rc.2 : Int) with heq | ⟨p, hp, hp'⟩
    · rw [heq] at h
      exact hP q (by unfold findPieceById; rw [hf]; simpa using h)
    · rw [hp'] at h
      injection h with h
      rw [← h]

/-- Spells surviving `updateActiveSpellsGo` all expire strictly later than
the current ply. -/
theorem updateGo_inv (ply : Nat) :
    ∀ (spells : List ActiveSpell) (b : Board) (sp : ActiveSpell),
    sp ∈ (updateActiveSpellsGo ply b spells).2 → ply < sp.expiresAtPly := by
  intro spells
  induction spells with
  | nil => intro b sp h; simp [updateActiveSpellsGo] at h
  | cons hd rest ih =>
    intro b sp h
    unfold updateActiveSpellsGo at h
    split at h
    · exact ih _ sp h
    · next hkeep =>
      rcases List.mem_cons.mp h with rfl | hmem
      · omega
      · exact ih _ sp hmem

/-- The board side of `updateActiveSpellsGo`: once some expired jump spell
in the list targets id `i` (or the property already holds), the resulting
board's piece under id `i` is not jumpable. -/
theorem updateGo_clears (ply : Nat) :
    ∀ (spells : List ActiveSpell) (b : Board) (i : Nat),
    ((∀ q, findPieceById b i = some q → q.isJumpable = false) ∨
     (∃ sp ∈ spells, sp.expiresAtPly ≤ ply ∧ sp.type = .jump ∧ sp.targetId = some i)) →
    ∀ q, findPieceById (updateActiveSpellsGo ply b spells).1 i = some q →
      q.isJumpable = false := by
  intro spells
  induction spells with
  | nil =>
    intro b i h q hq
    rcases h with hP | ⟨sp, hmem, _⟩
    · exact hP q hq
    · simp at hmem
  | cons hd rest ih =>
    intro b i h q hq
    unfold updateActiveSpellsGo at hq
    split at hq
    · next hexp =>
      refine ih _ i ?_ q hq
      rcases h with hP | ⟨sp, hmem, hsp⟩
      · left
        intro q' hq'
        split at hq'
        · next hjump =>
          cases hti : hd.targetId with
          | none => rw [hti] at hq'; exact hP q' hq'
          | some j => rw [hti] at hq'; exact clearJumpable_preserves b j i hP q' hq'
        · exact hP q' hq'
      · rcases List.mem_cons.mp hmem with rfl | hmem'
        · left
          obtain ⟨_, hjump, hti⟩ := hsp
          rw [if_pos hjump, hti]
          exact clearJumpable_self_spec b i
        · right
          exact ⟨sp, hmem', hsp⟩
    · next hkeep =>
      have hq' : findPieceById (updateActiveSpellsGo ply b rest).1 i = some q := hq
      refine ih _ i ?_ q hq'
      rcases h with hP | ⟨sp, hmem, hsp⟩
      · exact Or.inl hP
      · rcases List.mem_cons.mp hmem with rfl | hmem'
        · exact absurd hsp.1 (by omega)
        · exact Or.inr ⟨sp, hmem', hsp⟩

/-- `repetitionStep` only touches the repetition counter, game-over flag
and message. -/
theorem repetitionStep_activeSpells (s : GameState) :
    (repetitionStep s).activeSpells = s.activeSpells := by
  unfold repetitionStep
  split
  · rfl
  · simp only []
    split
    · rfl
    · rfl

theorem repetitionStep_plyCount (s : GameState) :
    (repetitionStep s).plyCount = s.plyCount := by
  unfold repetitionStep
  split
  · rfl
  · simp only []
    split
    · rfl
    · rfl

/-- `advanceTurn` only touches the player to move and turn number. -/
theorem advanceTurn_activeSpells (p : Color) (s : GameState) :
    (advanceTurn p s).activeSpells = s.activeSpells := by
  unfold advanceTurn
  split
  · rfl
  · rfl

theorem advanceTurn_plyCount (p : Color) (s : GameState) :
    (advanceTurn p s).plyCount = s.plyCount := by
  unfold advanceTurn
  split
  · rfl
  · rfl

/-- A finalized half-move has the incremented ply count and exactly the
spells that survive `updateActiveSpellsGo` at the new ply. -/
theorem finalize_done_spells {ns0 : GameState} {mn : Str} {mp : Piece}
    {fR tR fC tC : Int} {sn : Option Str} {s' : GameState}
    (h : finalizeMove ns0 mn mp fR tR fC tC sn = .done s') :
    s'.activeSpells =
      (updateActiveSpellsGo (ns0.plyCount + 1) ns0.board ns0.activeSpells).2 ∧
    s'.plyCount = ns0.plyCount + 1 := by
  unfold finalizeMove at h
  injection h with h
  subst h
  constructor
  · simp only [repetitionStep_activeSpells, advanceTurn_activeSpells]
    rfl
  · simp only [repetitionStep_plyCount, advanceTurn_plyCount]
    rfl

/-- Any finalized half-move satisfies the spell-lifetime invariant,
whatever state it started from. -/
theorem finalize_done_inv {ns0 : GameState} {mn : Str} {mp : Piece}
    {fR tR fC tC : Int} {sn : Option Str} {s' : GameState}
    (h : finalizeMove ns0 mn mp fR tR fC tC sn = .done s') :
    ∀ sp ∈ s'.activeSpells, s'.plyCount < sp.expiresAtPly := by
  obtain ⟨hsp, hply⟩ := finalize_done_spells h
  intro sp hmem
  rw [hsp] at hmem
  rw [hply]
  exact updateGo_inv (ns0.plyCount + 1) ns0.activeSpells ns0.board sp hmem

/-- Every finalized `applyMove` result satisfies the spell-lifetime
invariant. -/
theorem applyMove_done_inv {s : GameState} {fR fC tR tC : Int}
    {sn pp : Option Str} {s' : GameState}
    (h : applyMove s fR fC tR tC sn pp = .done s') :
    ∀ sp ∈ s'.activeSpells, s'.plyCount < sp.expiresAtPly := by
  unfold applyMove at h
  split at h
  · exact MoveResult.noConfusion h
  split at h
  · exact MoveResult.noConfusion h
  next mp heq =>
  try simp only [] at h
  by_cases hc1 : (¬(toLowerStr mp.type = str "k" ∧ (fC - tC).natAbs = 2)) ∧
      toLowerStr mp.type = str "p" ∧ (tR = 0 ∨ tR = 7)
  · rw [if_pos hc1] at h
    by_cases hc2 : jsTruthyStr pp = true
    · rw [if_pos hc2] at h
      exact finalize_done_inv h
    · rw [if_neg hc2] at h
      exact MoveResult.noConfusion h
  · rw [if_neg hc1] at h
    exact finalize_done_inv h

/-- Every finalized `applyPromotion` result satisfies the spell-lifetime
invariant. -/
theorem applyPromotion_done_inv {s : GameState} {pp : Str}
    {sn : Option Str} {s' : GameState}
    (h : applyPromotion s pp sn = .done s') :
    ∀ sp ∈ s'.activeSpells, s'.plyCount < sp.expiresAtPly := by
  unfold applyPromotion at h
  split at h
  · exact MoveResult.noConfusion h
  · try simp only [] at h
    split at h
    · exact MoveResult.noConfusion h
    · exact finalize_done_inv h

/-- A successful spell cast keeps the ply count and appends one record
expiring two plies later. -/
theorem applySpell_ok_spells {s : GameState} {k : SpellKind} {r c : Int}
    {s' : GameState} {n : Str} (h : applySpell s k r c = .ok s' n) :
    s'.plyCount = s.plyCount ∧
    ∃ tail, s'.activeSpells = s.activeSpells ++ [tail] ∧
      tail.expiresAtPly = s.plyCount + 2 := by
  unfold applySpell at h
  split at h
  · exact SpellResult.noConfusion h
  · split at h
    · try simp only [] at h
      split at h
      · exact SpellResult.noConfusion h
      · injection h with h1 h2
        subst h1
        exact ⟨rfl, _, rfl, rfl⟩
    · try simp only [] at h
      injection h with h1 h2
      subst h1
      exact ⟨rfl, _, rfl, rfl⟩

/-- An awaiting-promotion `applyMove` result changes neither the ply count
nor the active spells. -/
theorem applyMove_awaiting_spells {s : GameState} {fR fC tR tC : Int}
    {sn pp : Option Str} {s' : GameState} {ctx : AwaitingPromotion}
    (h : applyMove s fR fC tR tC sn pp = .awaiting s' ctx) :
    s'.activeSpells = s.activeSpells ∧ s'.plyCount = s.plyCount := by
  unfold applyMove at h
  split at h
  · exact MoveResult.noConfusion h
  split at h
  · exact MoveResult.noConfusion h
  next mp heq =>
  try simp only [] at h
  by_cases hc1 : (¬(toLowerStr mp.type = str "k" ∧ (fC - tC).natAbs = 2)) ∧
      toLowerStr mp.type = str "p" ∧ (tR = 0 ∨ tR = 7)
  · rw [if_pos hc1] at h
    by_cases hc2 : jsTruthyStr pp = true
    · rw [if_pos hc2] at h
      exact MoveResult.noConfusion h
    · rw [if_neg hc2] at h
      injection h with h1 h2
      subst h1
      exact ⟨rfl, rfl⟩
  · rw [if_neg hc1] at h
    exact MoveResult.noConfusion h

/-- The game states reachable from the initial state by successful public
engine operations. -/
inductive Reachable : GameState → Prop
  | init : Reachable createInitialGameState
  | spell {s s' : GameState} {k : SpellKind} {r c : Int} {n : Str} :
      Reachable s → applySpell s k r c = .ok s' n → Reachable s'
  | moveDone {s s' : GameState} {fR fC tR tC : Int} {sn pp : Option Str} :
      Reachable s → applyMove s fR fC tR tC sn pp = .done s' → Reachable s'
  | moveAwait {s s' : GameState} {fR fC tR tC : Int} {sn pp : Option Str}
      {ctx : AwaitingPromotion} :
      Reachable s → applyMove s fR fC tR tC sn pp = .awaiting s' ctx → Reachable s'
  | promo {s s' : GameState} {pp : Str} {sn : Option Str} :
      Reachable s → applyPromotion s pp sn = .done s' → Reachable s'
  | resign {s : GameState} : Reachable s → Reachable (applyResign s)

/-- **C8.**  First conjunct: in every state reachable from the initial
state by successful public operations, every active spell's expiry lies
strictly beyond the current ply count.  Second conjunct: when
`updateActiveSpells` (run at finalization) removes an expired jump spell,
the referenced piece — if still on the board — has its jumpable flag
cleared in the resulting board. -/
theorem c8_spell_lifetime :
    (∀ S, Reachable S → ∀ sp ∈ S.activeSpells, S.plyCount < sp.expiresAtPly) ∧
    (∀ (s : GameState) (sp : ActiveSpell), sp ∈ s.activeSpells →
      sp.expiresAtPly ≤ s.plyCount → sp.type = .jump →
      ∀ i, sp.targetId = some i →
      ∀ p, findPieceById (updateActiveSpells s).board i = some p →
        p.isJumpable = false) := by
  constructor
  · intro S h
    induction h with
    | init =>
      intro sp hsp
      rw [show createInitialGameState.activeSpells = [] from rfl] at hsp
      cases hsp
    | spell _ hap ih =>
      obtain ⟨hply, tail, hsp, hexp⟩ := applySpell_ok_spells hap
      intro sp hm
      rw [hsp] at hm
      rw [hply]
      rcases List.mem_append.mp hm with hm' | hm'
      · exact ih sp hm'
      · rcases List.mem_singleton.mp hm' with rfl
        omega
    | moveDone _ hap _ => exact applyMove_done_inv hap
    | moveAwait _ hap ih =>
      obtain ⟨hsp, hply⟩ := applyMove_awaiting_spells hap
      intro sp hm
      rw [hsp] at hm
      rw [hply]
      exact ih sp hm
    | promo _ hap _ => exact applyPromotion_done_inv hap
    | resign _ ih => exact fun sp hm => ih sp hm
  · intro s sp hmem hexp htype i hti p hp
    have hp' : findPieceById
        (updateActiveSpellsGo s.plyCount s.board s.activeSpells).1 i = some p := hp
    exact updateGo_clears s.plyCount s.activeSpells s.board i
      (Or.inr ⟨sp, hmem, hexp, htype, hti⟩) p hp'

/-- Witness for `c8_spell_lifetime`: the invariant at the initial state
(no active spells), via the `Reachable.init` constructor. -/
theorem c8_spell_lifetime_witness :
    ∀ sp ∈ createInitialGameState.activeSpells,
      createInitialGameState.plyCount < sp.expiresAtPly :=
  c8_spell_lifetime.1 createInitialGameState Reachable.init

-- ============================================================
-- C4: threefold repetition
-- ============================================================

/-- `repetitionCounter` lookup after a bump: the bumped key reads back one
higher (0 when absent before). -/
theorem lookupSig_bumpSig (m : List (Sig × Nat)) (k : Sig) :
    lookupSig (bumpSig m k) k = some ((lookupSig m k).getD 0 + 1) := by
  induction m with
  | nil => simp [bumpSig, lookupSig, List.find?]
  | cons e rest ih =>
    obtain ⟨k', v⟩ := e
    by_cases hk : k' = k
    · subst hk
      simp [bumpSig, lookupSig, List.find?]
    · simp only [bumpSig, if_neg hk]
      simp only [lookupSig] at ih ⊢
      rw [List.find?_cons_of_neg, List.find?_cons_of_neg]
      · exact ih
      · simp [hk]
      · simp [hk]

/-- `updateActiveSpells` leaves the repetition counter unchanged. -/
theorem updateActiveSpells_repetitionCounter (s : GameState) :
    (updateActiveSpells s).repetitionCounter = s.repetitionCounter := rfl

/-- The turn-advance step leaves the repetition counter unchanged. -/
theorem advanceTurn_repetitionCounter (p : Color) (s : GameState) :
    (advanceTurn p s).repetitionCounter = s.repetitionCounter := by
  unfold advanceTurn
  split
  · rfl
  · rfl

/-- Characterization of `repetitionStep` on a state that is not yet game
over: bump the counter at the current signature and end the game when the
new count reaches 3. -/
theorem repetitionStep_eq (ns : GameState) (h : ns.isGameOver = false) :
    repetitionStep ns =
      (let sig := generateStateSignature (createSnapshot ns)
       let count := (lookupSig ns.repetitionCounter sig).getD 0 + 1
       let ns1 := { ns with repetitionCounter := bumpSig ns.repetitionCounter sig }
       if 3 ≤ count then
         { ns1 with
           isGameOver := true
           gameEndMessage := str "Draw by threefold repetition." }
       else ns1) := by
  unfold repetitionStep
  rw [if_neg (by simp [h])]

/-- Every finalized half-move is `repetitionStep` applied to a state whose
repetition counter is the caller's and whose newest history entry is its
own snapshot: the signature the counter is bumped at is exactly the
signature of the snapshot just pushed. -/
theorem finalize_done_shape {ns0 : GameState} {mn : Str} {mp : Piece}
    {fR tR fC tC : Int} {sn : Option Str} {s' : GameState}
    (h : finalizeMove ns0 mn mp fR tR fC tC sn = .done s') :
    ∃ ns7 : GameState, s' = repetitionStep ns7 ∧
      ns7.repetitionCounter = ns0.repetitionCounter ∧
      ns7.history.getLast? = some (createSnapshot ns7) := by
  unfold finalizeMove at h
  injection h with h
  refine ⟨_, h.symm, ?_, ?_⟩
  · simp only [advanceTurn_repetitionCounter, updateActiveSpells_repetitionCounter]
  · rw [List.getLast?_concat]
    rfl

/-- The behaviour of `repetitionStep` on a live state, all four observables. -/
theorem repetitionStep_spec (ns : GameState) (h : ns.isGameOver = false) :
    lookupSig (repetitionStep ns).repetitionCounter
        (generateStateSignature (createSnapshot ns)) =
      some ((lookupSig ns.repetitionCounter
        (generateStateSignature (createSnapshot ns))).getD 0 + 1) ∧
    (repetitionStep ns).isGameOver =
      decide (3 ≤ (lookupSig ns.repetitionCounter
        (generateStateSignature (createSnapshot ns))).getD 0 + 1) ∧
    (repetitionStep ns).gameEndMessage =
      (if 3 ≤ (lookupSig ns.repetitionCounter
          (generateStateSignature (createSnapshot ns))).getD 0 + 1 then
        str "Draw by threefold repetition."
      else ns.gameEndMessage) ∧
    (repetitionStep ns).history = ns.history := by
  rw [repetitionStep_eq ns h]
  by_cases h3 : 3 ≤ (lookupSig ns.repetitionCounter
      (generateStateSignature (createSnapshot ns))).getD 0 + 1
  · simp only []
    rw [if_pos h3]
    refine ⟨lookupSig_bumpSig _ _, ?_, ?_, rfl⟩
    · simp [h3]
    · rw [if_pos h3]
  · simp only []
    rw [if_neg h3]
    refine ⟨lookupSig_bumpSig _ _, ?_, ?_, rfl⟩
    · simp [h3, h]
    · rw [if_neg h3]

/-- Four knight moves returning to the initial position, then a resign. -/
def c4Tokens : List Str :=
  [str "g1-f3", str "g8-f6", str "f3-g1", str "f6-g8", str "R"]

/-- The position signature of the initial position. -/
def initialSig : Sig := generateStateSignature (createSnapshot createInitialGameState)

/-- A concrete moved piece handed to `finalizeMove` in the C4 witness. -/
def c4Piece : Piece :=
  { type := str "P", color := .white, id := 52,
    isFrozen := false, isJumpable := false, hasMoved := true }

set_option maxHeartbeats 2000000 in
/-- C4, counterexample: after g1-f3 g8-f6 f3-g1 f6-g8 followed by a resign,
the final state's history holds three snapshots with the initial position's
signature (the initial snapshot, the one after black's fourth ply, and the
snapshot pushed by the resign, which changes none of the signature
fields), yet the game did not end with "Draw by threefold repetition." —
and the repetition counter records only 2 for that signature, because the
resign path pushes its snapshot without counting it.  This refutes the
claim's "whenever the same position signature has been reached three
times across history, the resulting state has is_game_over = true with
game_end_message 'Draw by threefold repetition.'". -/
theorem c4_counterexample :
  (replayCompactActions c4Tokens).map (fun S =>
     (S.history.countP fun sn => decide (generateStateSignature sn = initialSig),
      S.isGameOver,
      decide (S.gameEndMessage = str "Draw by threefold repetition."),
      lookupSig S.repetitionCounter initialSig))
  = .ok (3, true, false, some 2) := by
  rfl

/-- C4 (amended): repetition detection is a property of the counter kept by
move finalization, not of history.  (1) On a live state `repetitionStep`
increments the repetition counter at the current position signature, sets
is_game_over exactly when the new count reaches 3, in that case with
message "Draw by threefold repetition.", and pushes no snapshot itself.
(2) Every finalized half-move ends with `repetitionStep` applied to a
state carrying the caller's counter whose newest history entry is its own
snapshot, so the signature counted is that of the snapshot just pushed.
(3) The resign path pushes a history snapshot without touching the
repetition counter, so a signature can occur three times across history
without the game ending in repetition. -/
theorem c4_amended :
  (∀ ns : GameState, ns.isGameOver = false →
      lookupSig (repetitionStep ns).repetitionCounter
          (generateStateSignature (createSnapshot ns)) =
        some ((lookupSig ns.repetitionCounter
          (generateStateSignature (createSnapshot ns))).getD 0 + 1) ∧
      (repetitionStep ns).isGameOver =
        decide (3 ≤ (lookupSig ns.repetitionCounter
          (generateStateSignature (createSnapshot ns))).getD 0 + 1) ∧
      (repetitionStep ns).gameEndMessage =
        (if 3 ≤ (lookupSig ns.repetitionCounter
            (generateStateSignature (createSnapshot ns))).getD 0 + 1 then
          str "Draw by threefold repetition."
        else ns.gameEndMessage) ∧
      (repetitionStep ns).history = ns.history) ∧
  (∀ (ns0 : GameState) (mn : Str) (mp : Piece) (fR tR fC tC : Int)
      (sn : Option Str) (s' : GameState),
      finalizeMove ns0 mn mp fR tR fC tC sn = .done s' →
      ∃ ns7 : GameState, s' = repetitionStep ns7 ∧
        ns7.repetitionCounter = ns0.repetitionCounter ∧
        ns7.history.getLast? = some (createSnapshot ns7)) ∧
  (∀ s : GameState,
      (applyResign s).repetitionCounter = s.repetitionCounter ∧
      (applyResign s).history.length = s.history.length + 1) := by
  refine ⟨fun ns h => repetitionStep_spec ns h,
    fun ns0 mn mp fR tR fC tC sn s' h => finalize_done_shape h,
    fun s => ⟨rfl, ?_⟩⟩
  show (s.history ++ [_]).length = s.history.length + 1
  simp

set_option maxHeartbeats 2000000 in
/-- Witness for `c4_amended`: its three parts applied at the initial state
(and, for part 2, at a concrete `finalizeMove` call). -/
theorem c4_amended_witness :
  (lookupSig (repetitionStep createInitialGameState).repetitionCounter initialSig =
      some 2) ∧
  (∃ ns7 : GameState,
      (finalizeMove createInitialGameState (str "e4") c4Piece 6 4 4 4 none).getDone.getD
          createInitialGameState = repetitionStep ns7 ∧
      ns7.repetitionCounter = createInitialGameState.repetitionCounter ∧
      ns7.history.getLast? = some (createSnapshot ns7)) ∧
  ((applyResign createInitialGameState).repetitionCounter =
      createInitialGameState.repetitionCounter) := by
  refine ⟨?_, ?_, (c4_amended.2.2 createInitialGameState).1⟩
  · have h1 := (c4_amended.1 createInitialGameState rfl).1
    simp only [initialSig]
    rw [h1]
    rfl
  · exact c4_amended.2.1 createInitialGameState (str "e4") c4Piece 6 4 4 4 none _ rfl

-- ============================================================
-- C10: applyMove and pending promotions
-- ============================================================

/-- Erase the pending-promotion record from a snapshot (C10 comparison). -/
def stripSnap (sn : GameSnapshot) : GameSnapshot :=
  { sn with awaitingPromotion := none }

/-- Erase the pending-promotion record from a state and from every
snapshot in its history; all other fields are kept verbatim. -/
def stripState (s : GameState) : GameState :=
  { s with
    awaitingPromotion := none
    history := s.history.map stripSnap }

/-- Apply `stripState` to the state inside a move result. -/
def stripRes : MoveResult → MoveResult
  | .done s => .done (stripState s)
  | .awaiting s ctx => .awaiting (stripState s) ctx
  | .fail e => .fail e

/-- `hasLegalMoves` never reads `awaitingPromotion`. -/
theorem hasLegalMoves_mk_aw (p : Color) (b : Board) (cp : Color) (gt pl : Nat)
    (spl : Spells) (acs : List ActiveSpell) (ml : List MoveLogEntry)
    (ep : Option (Int × Int)) (cr : CastlingRights) (go : Bool) (gem : Str)
    (x : Option AwaitingPromotion) (hist : List GameSnapshot)
    (rep : List (Sig × Nat)) :
    hasLegalMoves p (GameState.mk b cp gt pl spl acs ml ep cr go gem x hist rep) =
    hasLegalMoves p (GameState.mk b cp gt pl spl acs ml ep cr go gem none hist rep) :=
  rfl

/-- `updateActiveSpells` on an explicit state: only board and spell list
change. -/
theorem updateActiveSpells_mk (b : Board) (cp : Color) (gt pl : Nat)
    (spl : Spells) (acs : List ActiveSpell) (ml : List MoveLogEntry)
    (ep : Option (Int × Int)) (cr : CastlingRights) (go : Bool) (gem : Str)
    (x : Option AwaitingPromotion) (hist : List GameSnapshot)
    (rep : List (Sig × Nat)) :
    updateActiveSpells (GameState.mk b cp gt pl spl acs ml ep cr go gem x hist rep) =
    GameState.mk (updateActiveSpellsGo pl b acs).1 cp gt pl spl
      (updateActiveSpellsGo pl b acs).2 ml ep cr go gem x hist rep :=
  rfl

/-- `advanceTurn` on an explicit state. -/
theorem advanceTurn_mk (p : Color) (b : Board) (cp : Color) (gt pl : Nat)
    (spl : Spells) (acs : List ActiveSpell) (ml : List MoveLogEntry)
    (ep : Option (Int × Int)) (cr : CastlingRights) (go : Bool) (gem : Str)
    (x : Option AwaitingPromotion) (hist : List GameSnapshot)
    (rep : List (Sig × Nat)) :
    advanceTurn p (GameState.mk b cp gt pl spl acs ml ep cr go gem x hist rep) =
    (if go = true then GameState.mk b cp gt pl spl acs ml ep cr go gem x hist rep
     else GameState.mk b p.other (if p = .black then gt + 1 else gt) pl spl acs ml
       ep cr go gem x hist rep) :=
  rfl

/-- Two states agreeing on everything but the pending promotion and the
snapshots' pending promotions strip to the same state. -/
theorem stripState_update_eq (s1 s2 : GameState)
    (hb : s1.board = s2.board) (hcp : s1.currentPlayer = s2.currentPlayer)
    (hgt : s1.gameTurnNumber = s2.gameTurnNumber) (hpl : s1.plyCount = s2.plyCount)
    (hsp : s1.spells = s2.spells) (hacs : s1.activeSpells = s2.activeSpells)
    (hml : s1.moveLog = s2.moveLog) (hep : s1.enPassantTarget = s2.enPassantTarget)
    (hcr : s1.castlingRights = s2.castlingRights) (hgo : s1.isGameOver = s2.isGameOver)
    (hgem : s1.gameEndMessage = s2.gameEndMessage)
    (hrep : s1.repetitionCounter = s2.repetitionCounter)
    (hh : s1.history.map stripSnap = s2.history.map stripSnap) :
    stripState s1 = stripState s2 := by
  cases s1
  cases s2
  simp_all [stripState]


/-- The position signature of an explicit state's snapshot. -/
theorem sig_createSnapshot_mk (b : Board) (cp : Color) (gt pl : Nat)
    (spl : Spells) (acs : List ActiveSpell) (ml : List MoveLogEntry)
    (ep : Option (Int × Int)) (cr : CastlingRights) (go : Bool) (gem : Str)
    (x : Option AwaitingPromotion) (hist : List GameSnapshot)
    (rep : List (Sig × Nat)) :
    generateStateSignature (createSnapshot
      (GameState.mk b cp gt pl spl acs ml ep cr go gem x hist rep)) =
    Sig.mk (sigBoardStr b) cp cr ep
      (spl.white.jumpLastUsedTurn, spl.white.freezeLastUsedTurn,
       spl.black.jumpLastUsedTurn, spl.black.freezeLastUsedTurn) :=
  rfl

/-- Congruence for the tail of `_finalizeMove` (turn advance, history push
and repetition step): states equal after stripping stay equal after
stripping. -/
theorem fin_tail_congr (s1 s2 : GameState) (p : Color)
    (h : stripState s1 = stripState s2) :
    stripState (repetitionStep
      { advanceTurn p s1 with
        history := (advanceTurn p s1).history ++ [createSnapshot (advanceTurn p s1)] }) =
    stripState (repetitionStep
      { advanceTurn p s2 with
        history := (advanceTurn p s2).history ++ [createSnapshot (advanceTurn p s2)] }) := by
  have hb : s1.board = s2.board := by have t := congrArg GameState.board h; exact t
  have hcp : s1.currentPlayer = s2.currentPlayer := by have t := congrArg GameState.currentPlayer h; exact t
  have hgt : s1.gameTurnNumber = s2.gameTurnNumber := by have t := congrArg GameState.gameTurnNumber h; exact t
  have hpl : s1.plyCount = s2.plyCount := by have t := congrArg GameState.plyCount h; exact t
  have hsp : s1.spells = s2.spells := by have t := congrArg GameState.spells h; exact t
  have hacs : s1.activeSpells = s2.activeSpells := by have t := congrArg GameState.activeSpells h; exact t
  have hml : s1.moveLog = s2.moveLog := by have t := congrArg GameState.moveLog h; exact t
  have hep : s1.enPassantTarget = s2.enPassantTarget :=
    by have t := congrArg GameState.enPassantTarget h; exact t
  have hcr : s1.castlingRights = s2.castlingRights :=
    by have t := congrArg GameState.castlingRights h; exact t
  have hgo : s1.isGameOver = s2.isGameOver := by have t := congrArg GameState.isGameOver h; exact t
  have hgem : s1.gameEndMessage = s2.gameEndMessage :=
    by have t := congrArg GameState.gameEndMessage h; exact t
  have hrep : s1.repetitionCounter = s2.repetitionCounter :=
    by have t := congrArg GameState.repetitionCounter h; exact t
  have hh : s1.history.map stripSnap = s2.history.map stripSnap :=
    by have t := congrArg GameState.history h; exact t
  clear h
  obtain ⟨b1, cp1, gt1, pl1, spl1, acs1, ml1, ep1, cr1, go1, gem1, x1, h1, rep1⟩ := s1
  obtain ⟨b2, cp2, gt2, pl2, spl2, acs2, ml2, ep2, cr2, go2, gem2, x2, h2, rep2⟩ := s2
  simp only [] at hb hcp hgt hpl hsp hacs hml hep hcr hgo hgem hrep hh
  subst hb; subst hcp; subst hgt; subst hpl; subst hsp; subst hacs; subst hml
  subst hep; subst hcr; subst hgo; subst hgem; subst hrep
  simp only [advanceTurn_mk]
  by_cases hgo1 : go1 = true
  · unfold repetitionStep
    simp only [sig_createSnapshot_mk, hgo1, eq_self_iff_true, if_true]
    apply stripState_update_eq <;>
      first
      | rfl
      | (rw [List.map_append, List.map_append, hh]; rfl)
  · unfold repetitionStep
    simp only [sig_createSnapshot_mk, hgo1, Bool.false_eq_true, if_false]
    split
    · apply stripState_update_eq <;>
        first
        | rfl
        | (rw [List.map_append, List.map_append, hh]; rfl)
    · apply stripState_update_eq <;>
        first
        | rfl
        | (rw [List.map_append, List.map_append, hh]; rfl)

set_option maxHeartbeats 2000000 in
/-- `_finalizeMove` never reads `awaitingPromotion`: up to the stale
pending-promotion record it threads into the result and its history
snapshot, the result does not depend on that field. -/
theorem finalize_strip_mk (b : Board) (cp : Color) (gt pl : Nat)
    (spl : Spells) (acs : List ActiveSpell) (ml : List MoveLogEntry)
    (ep : Option (Int × Int)) (cr : CastlingRights) (go : Bool) (gem : Str)
    (x : Option AwaitingPromotion) (hist : List GameSnapshot)
    (rep : List (Sig × Nat)) (mn : Str) (mp : Piece) (fR tR fC tC : Int)
    (sn : Option Str) :
    stripRes (finalizeMove (GameState.mk b cp gt pl spl acs ml ep cr go gem x hist rep)
      mn mp fR tR fC tC sn) =
    stripRes (finalizeMove (GameState.mk b cp gt pl spl acs ml ep cr go gem none hist rep)
      mn mp fR tR fC tC sn) := by
  refine congrArg MoveResult.done (fin_tail_congr _ _ _ rfl)

set_option maxHeartbeats 2000000 in
/-- `applyMove` never reads `awaitingPromotion`: the stripped result is
the same whether a promotion is pending or not. -/
theorem applyMove_strip_mk (b : Board) (cp : Color) (gt pl : Nat)
    (spl : Spells) (acs : List ActiveSpell) (ml : List MoveLogEntry)
    (ep : Option (Int × Int)) (cr : CastlingRights) (go : Bool) (gem : Str)
    (x : Option AwaitingPromotion) (hist : List GameSnapshot)
    (rep : List (Sig × Nat)) (fR fC tR tC : Int) (sn pp : Option Str) :
    stripRes (applyMove (GameState.mk b cp gt pl spl acs ml ep cr go gem x hist rep)
      fR fC tR tC sn pp) =
    stripRes (applyMove (GameState.mk b cp gt pl spl acs ml ep cr go gem none hist rep)
      fR fC tR tC sn pp) := by
  unfold applyMove
  simp only []
  by_cases hv : isValidMove fR fC tR tC b cp ep cr acs pl = false
  · simp only [if_pos hv]
  · simp only [if_neg hv]
    cases hbg : boardGet b fR fC with
    | none => rfl
    | some mp =>
      simp only []
      by_cases hc1 : (¬(toLowerStr mp.type = str "k" ∧ (fC - tC).natAbs = 2)) ∧
          toLowerStr mp.type = str "p" ∧ (tR = 0 ∨ tR = 7)
      · simp only [if_pos hc1]
        by_cases hc2 : jsTruthyStr pp = true
        · simp only [if_pos hc2]
          apply finalize_strip_mk
        · simp only [if_neg hc2]
          rfl
      · simp only [if_neg hc1]
        apply finalize_strip_mk

/-- `repetitionStep` keeps the pending-promotion field. -/
theorem repetitionStep_awaitingPromotion (s : GameState) :
    (repetitionStep s).awaitingPromotion = s.awaitingPromotion := by
  unfold repetitionStep
  split
  · rfl
  · simp only []
    split
    · rfl
    · rfl

/-- `advanceTurn` keeps the pending-promotion field. -/
theorem advanceTurn_awaitingPromotion (p : Color) (s : GameState) :
    (advanceTurn p s).awaitingPromotion = s.awaitingPromotion := by
  unfold advanceTurn
  split
  · rfl
  · rfl

/-- `repetitionStep` keeps the board. -/
theorem repetitionStep_board (s : GameState) :
    (repetitionStep s).board = s.board := by
  unfold repetitionStep
  split
  · rfl
  · simp only []
    split
    · rfl
    · rfl

/-- `advanceTurn` keeps the board. -/
theorem advanceTurn_board (p : Color) (s : GameState) :
    (advanceTurn p s).board = s.board := by
  unfold advanceTurn
  split
  · rfl
  · rfl

/-- A finalized half-move carries the caller's pending-promotion record
through unchanged (the stale context is never consumed). -/
theorem finalize_done_awaiting {ns0 : GameState} {mn : Str} {mp : Piece}
    {fR tR fC tC : Int} {sn : Option Str} {s' : GameState}
    (h : finalizeMove ns0 mn mp fR tR fC tC sn = .done s') :
    s'.awaitingPromotion = ns0.awaitingPromotion := by
  unfold finalizeMove at h
  injection h with h
  subst h
  simp only [repetitionStep_awaitingPromotion, advanceTurn_awaitingPromotion]
  rfl

/-- The finalized board is the caller's board filtered through
`updateActiveSpellsGo` at the incremented ply. -/
theorem finalize_done_board {ns0 : GameState} {mn : Str} {mp : Piece}
    {fR tR fC tC : Int} {sn : Option Str} {s' : GameState}
    (h : finalizeMove ns0 mn mp fR tR fC tC sn = .done s') :
    s'.board =
      (updateActiveSpellsGo (ns0.plyCount + 1) ns0.board ns0.activeSpells).1 := by
  unfold finalizeMove at h
  injection h with h
  subst h
  simp only [repetitionStep_board, advanceTurn_board]
  rfl

/-- A completed `applyMove` returns the caller's `awaitingPromotion`
untouched: a pending promotion is silently carried over, never applied. -/
theorem applyMove_done_awaiting {s : GameState} {fR fC tR tC : Int}
    {sn pp : Option Str} {s' : GameState}
    (h : applyMove s fR fC tR tC sn pp = .done s') :
    s'.awaitingPromotion = s.awaitingPromotion := by
  unfold applyMove at h
  split at h
  · exact MoveResult.noConfusion h
  split at h
  · exact MoveResult.noConfusion h
  next mp heq =>
  try simp only [] at h
  by_cases hc1 : (¬(toLowerStr mp.type = str "k" ∧ (fC - tC).natAbs = 2)) ∧
      toLowerStr mp.type = str "p" ∧ (tR = 0 ∨ tR = 7)
  · rw [if_pos hc1] at h
    by_cases hc2 : jsTruthyStr pp = true
    · rw [if_pos hc2] at h
      have t := finalize_done_awaiting h
      exact t
    · rw [if_neg hc2] at h
      exact MoveResult.noConfusion h
  · rw [if_neg hc1] at h
    have t := finalize_done_awaiting h
    exact t

/-- Spell expiry only toggles jumpable flags: type, colour and id of the
piece on every square are unchanged. -/
theorem updateGo_pointwise (ply : Nat) :
    ∀ (spells : List ActiveSpell) (b : Board) (r c : Int),
    (boardGet (updateActiveSpellsGo ply b spells).1 r c).map
        (fun q => (q.type, q.color, q.id)) =
      (boardGet b r c).map (fun q => (q.type, q.color, q.id)) := by
  intro spells
  induction spells with
  | nil => intro b r c; rfl
  | cons sp rest ih =>
    intro b r c
    unfold updateActiveSpellsGo
    split
    · simp only []
      rw [ih]
      split
      · split
        · rcases boardGet_clearJumpable_cases b _ r c with heq | ⟨p, hp, hp'⟩
          · rw [heq]
          · rw [hp, hp']
            rfl
        · rfl
      · rfl
    · simp only []
      exact ih b r c

/-- Pointwise: finalization preserves type, colour and id on every
square of the board it is handed. -/
theorem finalize_board_pointwise {ns0 : GameState} {mn : Str} {mp : Piece}
    {fR tR fC tC : Int} {sn : Option Str} {s' : GameState}
    (h : finalizeMove ns0 mn mp fR tR fC tC sn = .done s') (r c : Int) :
    (boardGet s'.board r c).map (fun q => (q.type, q.color, q.id)) =
      (boardGet ns0.board r c).map (fun q => (q.type, q.color, q.id)) := by
  rw [finalize_done_board h]
  exact updateGo_pointwise _ _ _ _ _

/-- What an accepted move guarantees: a mover of the current player's
colour, no own-colour piece on the target, and either the castling gate
with `checkCastleConditions`, or the per-piece geometry check. -/
theorem isValidMove_true_cases {fR fC tR tC : Int} {b : Board} {cp : Color}
    {ep : Option (Int × Int)} {cr : CastlingRights} {acs : List ActiveSpell}
    {ply : Nat}
    (h : isValidMove fR fC tR tC b cp ep cr acs ply = true) :
    ∃ moving, boardGet b fR fC = some moving ∧ moving.color = cp ∧
      (∀ tp, boardGet b tR tC = some tp → ¬ tp.color = moving.color) ∧
      ((toLowerStr moving.type = str "k" ∧ (tC - fC).natAbs = 2 ∧ fR = tR ∧
          checkCastleConditions fR fC tR tC b cp cr acs ply ep = true) ∨
       (¬(toLowerStr moving.type = str "k" ∧ (tC - fC).natAbs = 2 ∧ fR = tR) ∧
          pieceGeometryOk fR fC tR tC b ep moving = true)) := by
  unfold isValidMove at h
  split at h
  · exact absurd h (by decide)
  next moving heq =>
  by_cases h1 : moving.color ≠ cp
  · rw [if_pos h1] at h
    exact absurd h (by decide)
  rw [if_neg h1] at h
  by_cases h2 : (moving.isFrozen || isSquareUnderActiveFreeze fR fC acs ply) = true
  · rw [if_pos h2] at h
    exact absurd h (by decide)
  rw [if_neg h2] at h
  by_cases h3 : fR = tR ∧ fC = tC
  · rw [if_pos h3] at h
    exact absurd h (by decide)
  rw [if_neg h3] at h
  try simp only [] at h
  by_cases h4 : ((boardGet b tR tC).any fun tp =>
      decide (tp.color = moving.color)) = true
  · rw [if_pos h4] at h
    exact absurd h (by decide)
  rw [if_neg h4] at h
  try simp only [] at h
  refine ⟨moving, heq, not_not.mp h1, ?_, ?_⟩
  · intro tp htp hcol
    exact h4 (by rw [htp]; simp [hcol])
  by_cases h5 : toLowerStr moving.type = str "k" ∧ (tC - fC).natAbs = 2 ∧ fR = tR
  · rw [if_pos h5] at h
    exact Or.inl ⟨h5.1, h5.2.1, h5.2.2, h⟩
  · rw [if_neg h5] at h
    try simp only [] at h
    refine Or.inr ⟨h5, ?_⟩
    by_cases h6 : pieceGeometryOk fR fC tR tC b ep moving = false
    · rw [if_pos h6] at h
      exact absurd h (by decide)
    · revert h6
      cases pieceGeometryOk fR fC tR tC b ep moving
      · intro h6
        exact absurd rfl h6
      · intro _
        rfl

/-- An accepted pawn move always goes one or two rows in the pawn's
forward direction. -/
theorem pawn_geometry_row {fR fC tR tC : Int} {b : Board}
    {ep : Option (Int × Int)} {moving : Piece}
    (ht : toLowerStr moving.type = str "p")
    (hg : pieceGeometryOk fR fC tR tC b ep moving = true) :
    tR = fR + (if moving.color = Color.white then (-1 : Int) else 1) ∨
    tR = fR + 2 * (if moving.color = Color.white then (-1 : Int) else 1) := by
  unfold pieceGeometryOk at hg
  try simp only [] at hg
  rw [if_pos ht] at hg
  try simp only [] at hg
  by_cases hw : moving.color = Color.white
  · rw [if_pos hw] at hg ⊢
    split at hg
    · next h1 => exact Or.inl h1.1
    split at hg
    · next h2 => exact Or.inr h2.1
    split at hg
    · next h3 => exact Or.inl h3.1
    split at hg
    · next h4 => exact Or.inl h4.1
    exact absurd hg (by decide)
  · rw [if_neg hw] at hg ⊢
    split at hg
    · next h1 => exact Or.inl h1.1
    split at hg
    · next h2 => exact Or.inr h2.1
    split at hg
    · next h3 => exact Or.inl h3.1
    split at hg
    · next h4 => exact Or.inl h4.1
    exact absurd hg (by decide)

/-- An accepted castle has a rook-typed piece in the corner and an empty
square next to the king on the castling side. -/
theorem castle_extract {fR fC tR tC : Int} {b : Board} {cp : Color}
    {cr : CastlingRights} {acs : List ActiveSpell} {ply : Nat}
    {ep : Option (Int × Int)}
    (h : checkCastleConditions fR fC tR tC b cp cr acs ply ep = true) :
    (fC < tC → (∃ rk, boardGet b fR 7 = some rk ∧ toLowerStr rk.type = str "r") ∧
       boardGet b fR (fC + 1) = none) ∧
    (¬ fC < tC → (∃ rk, boardGet b fR 0 = some rk ∧ toLowerStr rk.type = str "r") ∧
       boardGet b fR (fC - 1) = none) := by
  unfold checkCastleConditions at h
  split at h
  · exact absurd h (by decide)
  next king hk =>
  split at h
  · exact absurd h (by decide)
  split at h
  · exact absurd h (by decide)
  try simp only [] at h
  by_cases hks : fC < tC
  · rw [if_pos hks] at h
    refine ⟨fun _ => ?_, fun hn => absurd hks hn⟩
    split at h
    · exact absurd h (by decide)
    split at h
    · exact absurd h (by decide)
    split at h
    · exact absurd h (by decide)
    next rook hrk =>
    split at h
    · exact absurd h (by decide)
    next hty =>
    split at h
    · exact absurd h (by decide)
    next hemp =>
    refine ⟨⟨rook, hrk, ?_⟩, ?_⟩
    · rcases not_or.mp hty with ⟨hty1, _⟩
      exact not_not.mp hty1
    · rcases not_or.mp hemp with ⟨he1, _⟩
      exact Option.not_isSome_iff_eq_none.mp (by simpa using he1)
  · rw [if_neg hks] at h
    refine ⟨fun hk2 => absurd hk2 hks, fun _ => ?_⟩
    split at h
    · exact absurd h (by decide)
    split at h
    · exact absurd h (by decide)
    split at h
    · exact absurd h (by decide)
    next rook hrk =>
    split at h
    · exact absurd h (by decide)
    next hty =>
    split at h
    · exact absurd h (by decide)
    next hemp =>
    refine ⟨⟨rook, hrk, ?_⟩, ?_⟩
    · rcases not_or.mp hty with ⟨hty1, _⟩
      exact not_not.mp hty1
    · rcases not_or.mp hemp with ⟨he1, _⟩
      exact Option.not_isSome_iff_eq_none.mp (by simpa using he1)

/-- An accepted non-castle king move spans at most one row and column. -/
theorem king_geometry {fR fC tR tC : Int} {b : Board} {ep : Option (Int × Int)}
    {moving : Piece} (ht : toLowerStr moving.type = str "k")
    (hg : pieceGeometryOk fR fC tR tC b ep moving = true) :
    (tR - fR).natAbs ≤ 1 ∧ (tC - fC).natAbs ≤ 1 := by
  unfold pieceGeometryOk at hg
  try simp only [] at hg
  rw [ht] at hg
  rw [if_neg (by decide : ¬(str "k" = str "p"))] at hg
  rw [if_neg (by decide : ¬(str "k" = str "n"))] at hg
  rw [if_neg (by decide : ¬(str "k" = str "b"))] at hg
  rw [if_neg (by decide : ¬(str "k" = str "r"))] at hg
  rw [if_neg (by decide : ¬(str "k" = str "q"))] at hg
  rw [if_pos (rfl : str "k" = str "k")] at hg
  exact of_decide_eq_true hg

/-- If a promotion is pending (same player, pawn still on its last rank)
and `applyMove` completes any move with an on-board destination row, the
un-promoted pawn is still on the pending square with its type, colour and
id unchanged — still typed as a pawn. -/
theorem applyMove_pawn_preserved {s : GameState} {ctx : AwaitingPromotion}
    {fR fC tR tC : Int} {sn pp : Option Str} {S' : GameState} {pw : Piece}
    (hcol : ctx.color = s.currentPlayer)
    (hrow : ctx.r = (if s.currentPlayer = Color.white then (0 : Int) else 7))
    (htr0 : 0 ≤ tR) (htr7 : tR ≤ 7)
    (hpw : boardGet s.board ctx.r ctx.c = some pw)
    (hpt : toLowerStr pw.type = str "p")
    (hpc : pw.color = s.currentPlayer)
    (hdone : applyMove s fR fC tR tC sn pp = .done S') :
    (boardGet S'.board ctx.r ctx.c).map (fun q => (q.type, q.color, q.id)) =
      some (pw.type, pw.color, pw.id) := by
  unfold applyMove at hdone
  split at hdone
  · exact MoveResult.noConfusion hdone
  next hnv =>
  have hvld : isValidMove fR fC tR tC s.board s.currentPlayer s.enPassantTarget
      s.castlingRights s.activeSpells s.plyCount = true := by
    revert hnv
    cases isValidMove fR fC tR tC s.board s.currentPlayer s.enPassantTarget
        s.castlingRights s.activeSpells s.plyCount
    · intro hnv
      exact absurd rfl hnv
    · intro _
      rfl
  obtain ⟨moving, hmv, hmvcol, htgt, hcases⟩ := isValidMove_true_cases hvld
  split at hdone
  · exact MoveResult.noConfusion hdone
  next mp heq =>
  have hinj : mp = moving := by
    rw [heq] at hmv
    exact Option.some.inj hmv
  subst hinj
  try simp only [] at hdone
  have hne_t : ¬(ctx.r = tR ∧ ctx.c = tC) := by
    rintro ⟨h1, h2⟩
    rw [h1, h2] at hpw
    exact htgt pw hpw (by rw [hpc, ← hmvcol])
  have hrowcontra : toLowerStr mp.type = str "p" →
      pieceGeometryOk fR fC tR tC s.board s.enPassantTarget mp = true →
      ¬ fR = ctx.r := by
    intro hmt hg hfr
    have h := pawn_geometry_row hmt hg
    rw [hmvcol] at h
    rw [hfr, hrow] at h
    cases hsc : s.currentPlayer with
    | white =>
      rw [hsc] at h
      simp at h
      try omega
    | black =>
      rw [hsc] at h
      simp at h
      try omega
  by_cases hc1 : (¬(toLowerStr mp.type = str "k" ∧ (fC - tC).natAbs = 2)) ∧
      toLowerStr mp.type = str "p" ∧ (tR = 0 ∨ tR = 7)
  · rw [if_pos hc1] at hdone
    by_cases hc2 : jsTruthyStr pp = true
    · rw [if_pos hc2] at hdone
      have hpoint := finalize_board_pointwise hdone ctx.r ctx.c
      rw [hpoint]
      simp only [deepCopyState]
      have hgeom : pieceGeometryOk fR fC tR tC s.board s.enPassantTarget mp
          = true := by
        rcases hcases with ⟨hk, _⟩ | ⟨_, hg⟩
        · rw [hc1.2.1] at hk
          exact absurd hk (by decide)
        · exact hg
      have hfr : ¬ fR = ctx.r := hrowcontra hc1.2.1 hgeom
      have hne_f : ¬(ctx.r = fR ∧ ctx.c = fC) := fun hh => hfr hh.1.symm
      simp only [if_neg hc1.1]
      rw [boardGet_boardSet_ne _ _ _ hne_t]
      rw [boardGet_boardSet_ne _ _ _ hne_f]
      rw [boardGet_boardSet_ne _ _ _ hne_t]
      split
      next hep =>
        rw [boardGet_boardSet_ne _ _ _ (fun hh => hfr hh.1.symm)]
        rw [hpw]
        rfl
      next hnep =>
        rw [hpw]
        rfl
    · rw [if_neg hc2] at hdone
      exact MoveResult.noConfusion hdone
  · rw [if_neg hc1] at hdone
    have hpoint := finalize_board_pointwise hdone ctx.r ctx.c
    rw [hpoint]
    simp only [deepCopyState]
    have hne_f : ¬(ctx.r = fR ∧ ctx.c = fC) := by
      rintro ⟨h1, h2⟩
      rw [h1, h2] at hpw
      rw [hpw] at hmv
      have hmm2 := Option.some.inj hmv
      rcases hcases with ⟨hk, _⟩ | ⟨_, hg⟩
      · rw [← hmm2, hpt] at hk
        exact absurd hk (by decide)
      · have hmt : toLowerStr mp.type = str "p" := by
          rw [← hmm2, hpt]
        exact (hrowcontra hmt hg) h1.symm
    by_cases hcast : toLowerStr mp.type = str "k" ∧ (fC - tC).natAbs = 2
    · have hcl : toLowerStr mp.type = str "k" ∧ (tC - fC).natAbs = 2 ∧
          fR = tR ∧ checkCastleConditions fR fC tR tC s.board s.currentPlayer
            s.castlingRights s.activeSpells s.plyCount s.enPassantTarget
            = true := by
        rcases hcases with hl | ⟨hnc, hg⟩
        · exact hl
        · exfalso
          obtain ⟨hkg1, hkg2⟩ := king_geometry hcast.1 hg
          have h2 := hcast.2
          omega
      obtain ⟨hkt, hnab, hfrtr, hcc⟩ := hcl
      have hext := castle_extract hcc
      simp only [if_pos hcast]
      by_cases hks : fC < tC
      · obtain ⟨⟨rk, hrkc, hrkty⟩, htransit⟩ := hext.1 hks
        have hne_c : ¬(ctx.r = fR ∧ ctx.c = (7 : Int)) := by
          rintro ⟨h1, h2⟩
          rw [h1, h2] at hpw
          rw [hpw] at hrkc
          have hri := Option.some.inj hrkc
          rw [← hri, hpt] at hrkty
          exact absurd hrkty (by decide)
        have htc : tC - fC = 2 := by omega
        have hne_tr : ¬(ctx.r = fR ∧ ctx.c = tC - 1) := by
          rintro ⟨h1, h2⟩
          have h2' : ctx.c = fC + 1 := by omega
          rw [h1, h2'] at hpw
          rw [htransit] at hpw
          exact Option.noConfusion hpw
        simp only [if_pos hks]
        rw [hrkc]
        simp only []
        rw [boardGet_boardSet_ne _ _ _ hne_f]
        rw [boardGet_boardSet_ne _ _ _ hne_t]
        split
        next hep =>
          exact absurd (hkt.symm.trans hep.1) (by decide)
        next hnep =>
          rw [boardGet_boardSet_ne _ _ _ hne_c]
          rw [boardGet_boardSet_ne _ _ _ hne_tr]
          rw [hpw]
          rfl
      · obtain ⟨⟨rk, hrkc, hrkty⟩, htransit⟩ := hext.2 hks
        have hne_c : ¬(ctx.r = fR ∧ ctx.c = (0 : Int)) := by
          rintro ⟨h1, h2⟩
          rw [h1, h2] at hpw
          rw [hpw] at hrkc
          have hri := Option.some.inj hrkc
          rw [← hri, hpt] at hrkty
          exact absurd hrkty (by decide)
        have htc : tC - fC = -2 := by omega
        have hne_tr : ¬(ctx.r = fR ∧ ctx.c = tC + 1) := by
          rintro ⟨h1, h2⟩
          have h2' : ctx.c = fC - 1 := by omega
          rw [h1, h2'] at hpw
          rw [htransit] at hpw
          exact Option.noConfusion hpw
        simp only [if_neg hks]
        rw [hrkc]
        simp only []
        rw [boardGet_boardSet_ne _ _ _ hne_f]
        rw [boardGet_boardSet_ne _ _ _ hne_t]
        split
        next hep =>
          exact absurd (hkt.symm.trans hep.1) (by decide)
        next hnep =>
          rw [boardGet_boardSet_ne _ _ _ hne_c]
          rw [boardGet_boardSet_ne _ _ _ hne_tr]
          rw [hpw]
          rfl
    · simp only [if_neg hcast]
      rw [boardGet_boardSet_ne _ _ _ hne_f]
      rw [boardGet_boardSet_ne _ _ _ hne_t]
      split
      next hep =>
        have hg : pieceGeometryOk fR fC tR tC s.board s.enPassantTarget mp
            = true := by
          rcases hcases with ⟨hk, _⟩ | ⟨_, hg⟩
          · rw [hep.1] at hk
            exact absurd hk (by decide)
          · exact hg
        have hfr := hrowcontra hep.1 hg
        rw [boardGet_boardSet_ne _ _ _ (fun hh => hfr hh.1.symm)]
        rw [hpw]
        rfl
      next hnep =>
        rw [hpw]
        rfl

/-- The un-promoted pawn of the C10 witness. -/
def c10Pawn : Piece :=
  { type := str "P", color := .white, id := 1,
    isFrozen := false, isJumpable := false, hasMoved := true }

/-- A pending-promotion context for the C10 witness. -/
def c10Ctx : AwaitingPromotion :=
  { r := 0, c := 0, color := .white, originalMoveNtn := str "a8",
    movingPiece := c10Pawn, fromR := 1, fromC := 0 }

/-- C10 witness board: white pawn a8 (pending promotion), black king e8,
white king e1. -/
def c10Board : Board :=
  [[some c10Pawn, none, none, none,
    some { type := str "k", color := .black, id := 3,
           isFrozen := false, isJumpable := false, hasMoved := true },
    none, none, none],
   [none, none, none, none, none, none, none, none],
   [none, none, none, none, none, none, none, none],
   [none, none, none, none, none, none, none, none],
   [none, none, none, none, none, none, none, none],
   [none, none, none, none, none, none, none, none],
   [none, none, none, none, none, none, none, none],
   [none, none, none, none,
    some { type := str "K", color := .white, id := 2,
           isFrozen := false, isJumpable := false, hasMoved := true },
    none, none, none]]

/-- C10 witness state: white to move with the promotion at a8 pending. -/
def c10State : GameState :=
  { board := c10Board
    currentPlayer := .white
    gameTurnNumber := 5
    plyCount := 8
    spells :=
      { white := { jump := 2, freeze := 5, jumpLastUsedTurn := 0, freezeLastUsedTurn := 0 }
        black := { jump := 2, freeze := 5, jumpLastUsedTurn := 0, freezeLastUsedTurn := 0 } }
    activeSpells := []
    moveLog := []
    enPassantTarget := none
    castlingRights := { whiteK := false, whiteQ := false, blackK := false, blackQ := false }
    isGameOver := false
    gameEndMessage := []
    awaitingPromotion := some c10Ctx
    history := []
    repetitionCounter := [] }

/-- C10: `applyMove` never reads `awaiting_promotion`.  (1) Up to the
stale pending-promotion record threaded verbatim into the result state
and its history snapshot (erased by `stripRes`), the result of any move
is identical whether a promotion is pending or not — acceptance and all
other effects are unchanged.  (2) A completed move returns the pending
record untouched, silently abandoning the promotion.  (3) The un-promoted
pawn stays on its last-rank square, still typed as a pawn with its colour
and id, after any completed move of the same player.  The two-step
promotion protocol is not enforced by the engine. -/
theorem c10_never_reads_awaiting :
  (∀ (s : GameState) (x : Option AwaitingPromotion) (fR fC tR tC : Int)
      (sn pp : Option Str),
     stripRes (applyMove { s with awaitingPromotion := x } fR fC tR tC sn pp) =
     stripRes (applyMove { s with awaitingPromotion := none } fR fC tR tC sn pp)) ∧
  (∀ (s : GameState) (fR fC tR tC : Int) (sn pp : Option Str) (S' : GameState),
     applyMove s fR fC tR tC sn pp = .done S' →
     S'.awaitingPromotion = s.awaitingPromotion) ∧
  (∀ (s : GameState) (ctx : AwaitingPromotion) (fR fC tR tC : Int)
      (sn pp : Option Str) (S' : GameState) (pw : Piece),
     s.awaitingPromotion = some ctx →
     ctx.color = s.currentPlayer →
     ctx.r = (if s.currentPlayer = Color.white then (0 : Int) else 7) →
     0 ≤ tR → tR ≤ 7 →
     boardGet s.board ctx.r ctx.c = some pw →
     toLowerStr pw.type = str "p" →
     pw.color = s.currentPlayer →
     applyMove s fR fC tR tC sn pp = .done S' →
     (boardGet S'.board ctx.r ctx.c).map (fun q => (q.type, q.color, q.id)) =
       some (pw.type, pw.color, pw.id)) := by
  refine ⟨fun s x fR fC tR tC sn pp => ?_,
    fun s fR fC tR tC sn pp S' h => applyMove_done_awaiting h,
    fun s ctx fR fC tR tC sn pp S' pw _ h2 h3 h4 h5 h6 h7 h8 h9 =>
      applyMove_pawn_preserved h2 h3 h4 h5 h6 h7 h8 h9⟩
  obtain ⟨b, cp, gt, pl, spl, acs, ml, ep, cr, go, gem, a, hist, rep⟩ := s
  exact applyMove_strip_mk b cp gt pl spl acs ml ep cr go gem x hist rep fR fC tR tC sn pp

set_option maxHeartbeats 2000000 in
/-- Witness for `c10_never_reads_awaiting`: its three parts at concrete
inputs — e2-e4 from the initial position with a fabricated pending
promotion, and a king move in a position with a pending promotion at a8,
after which the a8 pawn is unchanged. -/
theorem c10_never_reads_awaiting_witness :
  (stripRes (applyMove { createInitialGameState with awaitingPromotion := some c10Ctx }
      6 4 4 4 none none) =
   stripRes (applyMove { createInitialGameState with awaitingPromotion := none }
      6 4 4 4 none none)) ∧
  ((applyMove createInitialGameState 6 4 4 4 none none).getDone.getD
      createInitialGameState).awaitingPromotion =
    createInitialGameState.awaitingPromotion ∧
  (boardGet ((applyMove c10State 7 4 6 4 none none).getDone.getD c10State).board
      0 0).map (fun q => (q.type, q.color, q.id)) =
    some (c10Pawn.type, c10Pawn.color, c10Pawn.id) := by
  refine ⟨c10_never_reads_awaiting.1 createInitialGameState (some c10Ctx) 6 4 4 4 none none,
    c10_never_reads_awaiting.2.1 createInitialGameState 6 4 4 4 none none _ rfl,
    c10_never_reads_awaiting.2.2 c10State c10Ctx 7 4 6 4 none none _ c10Pawn rfl rfl rfl
      (by decide) (by decide) rfl rfl rfl rfl⟩
